import Mathlib

/-!
Unit-test reporter libut: a shallow embedding of `src/ut.c`

The reporter of `ut.c` keeps its state in file-level variables and writes to
standard output.  Here the variables become the fields of `State`, standard
output becomes the field `out` (everything printed so far), and a C function
becomes a function from `State` to a return value and a new `State`.

Conventions of the embedding:

* C `int` variables are unbounded integers.  Signed overflow is undefined
  behaviour in C and is not part of the model.
* A `printf`-style call is modelled after formatting: a message argument is the
  text that `vprintf(fmt, args)` writes, one `Char` per byte.
* `fflush` has no counterpart, `out` is always up to date.
* A nullable pointer is an `Option`; a C string is its content before the
  terminating NUL.
* A call that does not return (the process ends in it) or whose behaviour C
  leaves undefined has the result `none`; this arises in `hex_escape` and
  `ut_validate_buffer` only.
-/

namespace Ut

/-! ## Formatting helpers (what `printf` does with the conversions used) -/

/-- The conversion `%d`: signed decimal. -/
def fmt_d (v : Int) : String := toString v

/-- The text `c` repeated `n` times. -/
def pad (c : Char) (n : Nat) : String := String.mk (List.replicate n c)

/-- The conversion `% 3d`: signed decimal, a blank in place of the sign of a
non-negative number, right-justified in a field of at least 3 characters. -/
def fmt_sp3d (v : Int) : String :=
  let body := if v < 0 then fmt_d v else " " ++ fmt_d v
  pad ' ' (3 - body.length) ++ body

/-- The conversion `%02x`: the `int` argument is read as `unsigned int`
(32 bits) and written in lowercase hexadecimal, zero-padded to at least 2
digits. -/
def fmt_02x (v : Int) : String :=
  let digits := String.mk (Nat.toDigits 16 (v % 2 ^ 32).toNat)
  pad '0' (2 - digits.length) ++ digits

/-! ## Doubles

A finite binary64 value is `m * 2^e` with `|m| < 2^53` (`Double`).  A value
of the C type `double` is such a value, negative zero, an infinity or a NaN
(`CDouble`). -/

/-- A finite `double`: the value `m * 2^e`. -/
structure Double where
  m : Int
  e : Int
  deriving DecidableEq, Repr

/-- Round-half-even quotient of a natural number by `2^k`. -/
def roundShift (n k : Nat) : Nat :=
  let q := n / 2 ^ k
  let r := n % 2 ^ k
  if 2 * r > 2 ^ k ∨ (2 * r = 2 ^ k ∧ q % 2 = 1) then q + 1 else q

/-- The number of binary digits of `n`, counted with at most `fuel` halvings. -/
def bitLengthAux : Nat → Nat → Nat
  | 0, _ => 0
  | fuel + 1, n => if n = 0 then 0 else 1 + bitLengthAux fuel (n / 2)

/-- The number of binary digits of `n` (0 for 0); `n` halvings are enough. -/
def bitLength (n : Nat) : Nat := bitLengthAux n n

/-- Rounding of the exact value `m * 2^e` to 53 significant bits, ties to even
(the default rounding mode). -/
def Double.round (m e : Int) : Double :=
  let k := bitLength m.natAbs - 53
  { m := Int.sign m * (roundShift m.natAbs k : Int), e := e + k }

/-- The C expression `a - b` on doubles: the exact difference, rounded. -/
def Double.sub (a b : Double) : Double :=
  let e := min a.e b.e
  Double.round (a.m * 2 ^ (a.e - e).toNat - b.m * 2 ^ (b.e - e).toNat) e

/-- The C library function `fabs`. -/
def fabs (a : Double) : Double := { a with m := |a.m| }

/-- The C comparison `a > k` of a double with an `int` constant (the constant is
converted to double, exactly). -/
def Double.gtInt (a : Double) (k : Int) : Bool :=
  if 0 ≤ a.e then decide (a.m * 2 ^ a.e.toNat > k)
  else decide (a.m > k * 2 ^ (-a.e).toNat)

/-- A value of the C type `double`: a finite value (zero is positive zero),
negative zero, an infinity or a NaN. -/
inductive CDouble
  | finite (d : Double)
  | negZero
  | posInf
  | negInf
  | nan
  deriving DecidableEq, Repr

/-- Whether the magnitude of the rounded value is beyond the largest finite
double: `2^1024` or more. -/
def Double.overflows (a : Double) : Bool :=
  decide (a.m ≠ 0 ∧ 1024 < (bitLength a.m.natAbs : Int) + a.e)

/-- The C expression `a - b` on doubles, special values included: a NaN gives a
NaN, so does the difference of equal infinities; a finite difference beyond the
largest double becomes an infinity; a zero difference is positive zero unless
it is `-0 - +0`. -/
def CDouble.sub : CDouble → CDouble → CDouble
  | .nan, _ => .nan
  | _, .nan => .nan
  | .posInf, .posInf => .nan
  | .negInf, .negInf => .nan
  | .posInf, _ => .posInf
  | .negInf, _ => .negInf
  | _, .posInf => .negInf
  | _, .negInf => .posInf
  | .negZero, .negZero => .finite { m := 0, e := 0 }
  | .negZero, .finite b => if b.m = 0 then .negZero else .finite (Double.sub { m := 0, e := b.e } b)
  | .finite a, .negZero => .finite a
  | .finite a, .finite b =>
      if (a.sub b).overflows then (if (a.sub b).m < 0 then .negInf else .posInf)
      else .finite (a.sub b)

/-- The C library function `fabs`, special values included. -/
def CDouble.fabs : CDouble → CDouble
  | .finite a => .finite (Ut.fabs a)
  | .negZero => .finite { m := 0, e := 0 }
  | .posInf => .posInf
  | .negInf => .posInf
  | .nan => .nan

/-- The C comparison `a > k` of a double with an `int` constant, special values
included: a comparison with a NaN is false. -/
def CDouble.gtInt (a : CDouble) (k : Int) : Bool :=
  match a with
  | .finite d => d.gtInt k
  | .negZero => decide (0 > k)
  | .posInf => true
  | .negInf => false
  | .nan => false

/-- The conversion of an `int` to `double` (exact below `2^53`). -/
def Double.ofInt (v : Int) : Double := Double.round v 0

/-- The C expression `a * b` on doubles: the exact product, rounded. -/
def Double.mul (a b : Double) : Double := Double.round (a.m * b.m) (a.e + b.e)

/-- The conversion of a `double` to `int`: the fractional part is discarded
(truncation toward zero). -/
def Double.toInt (a : Double) : Int :=
  if 0 ≤ a.e then a.m * 2 ^ a.e.toNat
  else Int.sign a.m * ((a.m.natAbs / 2 ^ (-a.e).toNat : Nat) : Int)

/-- The literal `0.60` of `ut_windowsize`: the double nearest to 6/10,
`5404319552844595 * 2^-53`. -/
def LEFT_SHARE : Double := { m := 5404319552844595, e := -53 }

/-- The conversion `%f`: sign, integer part, a point and 6 decimals, the exact
value rounded half-even at the sixth decimal. -/
def fmt_f (a : Double) : String :=
  let num : Nat := if 0 ≤ a.e then a.m.natAbs * 2 ^ a.e.toNat * 10 ^ 6 else a.m.natAbs * 10 ^ 6
  let den : Nat := if 0 ≤ a.e then 1 else 2 ^ (-a.e).toNat
  let q := num / den
  let r := num % den
  let n := if 2 * r > den ∨ (2 * r = den ∧ q % 2 = 1) then q + 1 else q
  let frac := toString (n % 10 ^ 6)
  (if a.m < 0 then "-" else "") ++ toString (n / 10 ^ 6) ++ "." ++
    pad '0' (6 - frac.length) ++ frac

/-- The conversion `%f`, special values included (the sign of a NaN is not
modelled). -/
def CDouble.fmt_f : CDouble → String
  | .finite a => Ut.fmt_f a
  | .negZero => "-0.000000"
  | .posInf => "inf"
  | .negInf => "-inf"
  | .nan => "nan"

/-! ## The state: the file-level variables of `ut.c` and standard output -/

/-- `DOUBLE_EPSILON`, `ut.c` line 16: a hexadecimal integer literal. -/
def DOUBLE_EPSILON : Int := 0x00000000001

/-- The file-level variables of `ut.c`, the static buffer `str` of
`hex_escape` (as the C string it holds), and the text written to `stdout`. -/
structure State where
  cols : Int
  rows : Int
  left_width : Int
  right_width : Int
  backspace : Int
  ut_tests : Int
  ut_sections : Int
  ut_succeeded : Int
  ut_skipped : Int
  ut_failed : Int
  str : String
  out : String
  deriving DecidableEq, Repr

/-- The state at program start: every variable has its initialiser (statics
without one are zero), nothing has been printed. -/
def State.initial : State :=
  { cols := 0, rows := 0, left_width := 0, right_width := 0, backspace := 0,
    ut_tests := 0, ut_sections := 0, ut_succeeded := 0, ut_skipped := 0,
    ut_failed := 0, str := "", out := "" }

/-- The call `printf`/`putchar` on already formatted text. -/
def State.print (s : State) (text : String) : State := { s with out := s.out ++ text }

/-! ## Initialisation -/

/-- What the surroundings of the process answer to `ut_windowsize`: the window
size `(ws_col, ws_row)` when `ioctl(STDOUT_FILENO, TIOCGWINSZ, &ws)` succeeds,
and the values of the environment variables `COLUMNS` and `LINES` when they are
set. -/
structure Environment where
  winsize : Option (Nat × Nat)
  COLUMNS : Option String
  LINES : Option String
  deriving DecidableEq, Repr

/-- The conversion of a `long` to `int` by assignment: 32 bits, two's
complement. -/
def toInt32 (v : Int) : Int := (v + 2 ^ 31) % 2 ^ 32 - 2 ^ 31

/-- The value of a digit character in the given base, if it is one. -/
def digitValue (base : Nat) (c : Char) : Option Nat :=
  let v :=
    if '0' ≤ c ∧ c ≤ '9' then c.toNat - '0'.toNat
    else if 'a' ≤ c ∧ c ≤ 'z' then c.toNat - 'a'.toNat + 10
    else if 'A' ≤ c ∧ c ≤ 'Z' then c.toNat - 'A'.toNat + 10
    else base
  if v < base then some v else none

/-- The value of the longest run of digits at the head of the text, starting
from the accumulator `acc`. -/
def strtol_digits (base : Nat) : List Char → Nat → Nat
  | [], acc => acc
  | c :: rest, acc =>
      match digitValue base c with
      | some v => strtol_digits base rest (acc * base + v)
      | none => acc

/-- The magnitude that `strtol` reads with base 0, after white space and sign:
hexadecimal after `0x` or `0X` and a hexadecimal digit, octal after `0`,
decimal otherwise; 0 when no digit is there. -/
def strtol_magnitude : List Char → Nat
  | '0' :: x :: c :: rest =>
      if (x = 'x' ∨ x = 'X') ∧ (digitValue 16 c).isSome then strtol_digits 16 (c :: rest) 0
      else strtol_digits 8 (x :: c :: rest) 0
  | '0' :: rest => strtol_digits 8 rest 0
  | text => strtol_digits 10 text 0

/-- The C library call `strtol(s, NULL, 0)` with a 64-bit `long`: white space is
skipped, a sign is read, the digits are read in the base their prefix gives,
and the value is clamped to the range of `long`. -/
def strtol (s : String) : Int :=
  let text := s.data.dropWhile
    (fun c => c = ' ' ∨ c = '\t' ∨ c = '\n' ∨ c = '\x0b' ∨ c = '\x0c' ∨ c = '\r')
  let v : Int :=
    match text with
    | '-' :: rest => -(strtol_magnitude rest : Int)
    | '+' :: rest => (strtol_magnitude rest : Int)
    | _ => (strtol_magnitude text : Int)
  max (-(2 ^ 63)) (min (2 ^ 63 - 1) v)

/-- The function `ut_windowsize`, `ut.c` lines 46-66.  The chain of `||` assigns
`cols` and `rows` as it goes and stops at the first operand that holds. -/
def ut_windowsize (env : Environment) (s : State) : State :=
  let s :=
    match env.winsize with
    | some (ws_col, ws_row) => { s with cols := (ws_col : Int), rows := (ws_row : Int) }
    | none =>
      match env.COLUMNS with
      | none => { s with cols := 80, rows := 25 }
      | some c =>
        let s := { s with cols := toInt32 (strtol c) }
        if s.cols = 0 then { s with cols := 80, rows := 25 }
        else
          match env.LINES with
          | none => { s with cols := 80, rows := 25 }
          | some l =>
            let s := { s with rows := toInt32 (strtol l) }
            if s.rows = 0 then { s with cols := 80, rows := 25 } else s
  let s := { s with left_width := ((Double.ofInt s.cols).mul LEFT_SHARE).toInt }
  { s with right_width := s.cols - s.left_width }

/-- The function `ut_init`, `ut.c` lines 68-74. -/
def ut_init (env : Environment) (programname : String) (s : State) : State :=
  let s := ut_windowsize env s
  s.print ("==> Testing " ++ programname ++ "\n")

/-! ## Announcements -/

/-- The function `ut_section`, `ut.c` lines 76-84. -/
def ut_section (subtitle : String) (s : State) : State :=
  let s := if s.ut_sections > 0 then s.print "\n" else s
  let s := { s with ut_sections := s.ut_sections + 1 }
  s.print ("==> Section " ++ fmt_d s.ut_sections ++ ": " ++ subtitle ++ "\n")

/-- The loop `for (; n > 0; n--) putchar(' ')` of `ut_testing`, run for the
`n.toNat` iterations it makes. -/
def ut_testing_pad : Nat → State → State
  | 0, s => s
  | k + 1, s => ut_testing_pad k (s.print " ")

/-- The function `ut_testing`, `ut.c` lines 86-106; `msg` is the text written
by `vprintf(fmt, args)`, whose return value is its length. -/
def ut_testing (msg : String) (s : State) : State :=
  let n := s.left_width
  let s := { s with ut_tests := s.ut_tests + 1 }
  let s := s.print (fmt_sp3d s.ut_tests ++ " ")
  let n := n - 3
  let s := s.print msg
  let n := n - (msg.length : Int)
  ut_testing_pad n.toNat s

/-- The loop of `ut_backspace` run for `k` iterations, `backspace` counting
down with it. -/
def ut_backspace_loop : Nat → State → State
  | 0, s => s
  | k + 1, s => ut_backspace_loop k { s.print "\x08 \x08" with backspace := s.backspace - 1 }

/-- The function `ut_backspace`, `ut.c` lines 109-114. -/
def ut_backspace (s : State) : State := ut_backspace_loop s.backspace.toNat s

/-- The function `ut_progress`, `ut.c` lines 116-123; `printf` returns the
number of characters it wrote. -/
def ut_progress (percentage : Int) (s : State) : State :=
  let s := ut_backspace s
  let text := fmt_d percentage ++ "%"
  { s.print text with backspace := (text.length : Int) }

/-- The function `ut_success`, `ut.c` lines 125-136. -/
def ut_success (s : State) : Int × State :=
  let s := ut_backspace s
  let s := s.print "ok\n"
  (1, { s with ut_succeeded := s.ut_succeeded + 1 })

/-- The function `ut_skip`, `ut.c` lines 138-149. -/
def ut_skip (s : State) : Int × State :=
  let s := ut_backspace s
  let s := s.print "skipped\n"
  (1, { s with ut_skipped := s.ut_skipped + 1 })

/-- The function `ut_vfailure`, `ut.c` lines 165-178. -/
def ut_vfailure (msg : String) (s : State) : Int × State :=
  let s := ut_backspace s
  let s := s.print "FAILED "
  let s := s.print msg
  let s := s.print "\n"
  (0, { s with ut_failed := s.ut_failed + 1 })

/-- The function `ut_failure`, `ut.c` lines 151-163: it calls `ut_vfailure`
and returns 0. -/
def ut_failure (msg : String) (s : State) : Int × State :=
  (0, (ut_vfailure msg s).2)

/-- The function `ut_vresult`, `ut.c` lines 192-201. -/
def ut_vresult (r : Int) (msg : String) (s : State) : Int × State :=
  if r ≠ 0 then (r, (ut_success s).2) else (r, (ut_vfailure msg s).2)

/-- The function `ut_result`, `ut.c` lines 180-190: it calls `ut_vresult` and
returns `r`. -/
def ut_result (r : Int) (msg : String) (s : State) : Int × State :=
  (r, (ut_vresult r msg s).2)

/-! ## Summary -/

/-- How a call that may end the process comes back: it returns to its caller,
or the process has ended through `exit(status)`. -/
inductive Completion
  | returned
  | exited (status : Int)
  deriving DecidableEq, Repr

/-- The function `ut_summary`, `ut.c` lines 203-227. -/
def ut_summary (s : State) : Completion × State :=
  let r := s.ut_succeeded + s.ut_failed + s.ut_skipped
  if s.ut_tests = 0 then
    (Completion.exited 99, (ut_failure "no tests" s).2)
  else if r ≠ s.ut_tests then
    (Completion.exited 99,
      (ut_failure ("number of tests (" ++ fmt_d s.ut_tests ++
        ") does not match number of results (" ++ fmt_d r ++ ")") s).2)
  else
    let s := s.print ("==> Summary: " ++ fmt_d s.ut_tests ++ " tests, " ++
      fmt_d s.ut_succeeded ++ " succeeded")
    let s := if s.ut_failed ≠ 0 then s.print (", " ++ fmt_d s.ut_failed ++ " failed") else s
    let s := if s.ut_skipped ≠ 0 then s.print (", " ++ fmt_d s.ut_skipped ++ " skipped") else s
    (Completion.returned, s.print ".\n")

/-! ## Comparators -/

/-- The call `sprintf(p, ...)` with `p` pointing `p` characters into the C
string `str`: the text and its terminating NUL replace what was there, so the
string now ends with the text. -/
def sprintf_at (str : String) (p : Nat) (text : String) : String :=
  String.mk (str.data.take p ++ text.data)

/-- The loop of `hex_escape` with `k` iterations left, at index `i` and write
offset `p`; `buf[i]` is a `char`, promoted to `int` for `%02x`. -/
def hex_escape_loop (buf : List Int) : Nat → Nat → Nat → String → String
  | 0, _, _, str => str
  | k + 1, i, p, str =>
      hex_escape_loop buf k (i + 1) (p + 2) (sprintf_at str p (fmt_02x (buf.getD i 0)))

/-- The function `hex_escape`, `ut.c` lines 30-43.  A buffer is the list of its
`char` values (with a signed `char`, the bytes 0x80..0xff are -128..-1).  The
result is left in the static buffer `str`, which the returned pointer
designates.  The result is `none` when the call does not return or is
undefined:
* `realloc(str, (len*2)+4)` takes its size as a `size_t`; a negative size is a
  request no memory can serve, `realloc` returns NULL and `strcpy(NULL, "0x")`
  ends the process (size 0, where `realloc` may return NULL too, is taken the
  same way);
* a read of `buf[i]` outside the buffer is undefined.
For a `char` below 0 `sprintf` writes 8 digits, up to 5 bytes more than were
allocated; the model lets these bytes land, as they do in the slack of the heap
block. -/
def hex_escape (buf : List Int) (len : Int) (s : State) : Option State :=
  if len * 2 + 4 ≤ 0 then none
  else if (buf.length : Int) < len then none
  else some { s with str := hex_escape_loop buf len.toNat 0 2 "0x" }

/-- The conversion of an `int` to `size_t` (64 bits): a negative value becomes
a huge count. -/
def size_t (v : Int) : Nat := (v % 2 ^ 64).toNat

/-- The C library function `memcmp` on the first `n` bytes, as the sign of its
result: bytes compare as `unsigned char`, up to the first difference; a read
outside one of the buffers is undefined (`none`). -/
def memcmp : List Int → List Int → Nat → Option Int
  | _, _, 0 => some 0
  | x :: a, y :: b, n + 1 =>
      if x % 256 < y % 256 then some (-1)
      else if x % 256 > y % 256 then some 1
      else memcmp a b n
  | _, _, _ + 1 => none

/-- The C library function `strcmp` on the contents of two C strings, as the
sign of its result; a string that ends first is the smaller one. -/
def strcmp : List Char → List Char → Int
  | [], [] => 0
  | [], _ :: _ => -1
  | _ :: _, [] => 1
  | x :: a, y :: b =>
      if x.toNat < y.toNat then -1
      else if x.toNat > y.toNat then 1
      else strcmp a b

/-- The function `ut_validate_buffer`, `ut.c` lines 229-252.  The length given
to `memcmp` is converted to `size_t` (64 bits), so a negative `orig_len` is a
huge count.  The result is `none` when the call does not return or is
undefined (see `hex_escape` and `memcmp`). -/
def ut_validate_buffer (result : Option (List Int)) (result_len : Int)
    (orig : Option (List Int)) (orig_len : Int) (s : State) : Option (Int × State) :=
  if orig = none ∧ result ≠ none then
    match hex_escape (result.getD []) result_len s with
    | none => none
    | some s => some (ut_failure ("'" ++ s.str ++ "' should be NULL") s)
  else if result = none ∧ orig ≠ none then
    some (ut_failure "should not be NULL" s)
  else if result = none ∧ result_len ≠ 0 then
    some (ut_failure "NULL but len is not 0" s)
  else if result_len ≠ orig_len then
    some (ut_failure
      ("result len == " ++ fmt_d result_len ++ " but should be " ++ fmt_d orig_len) s)
  else if result = none ∧ orig = none then
    some (ut_success s)
  else
    match memcmp (result.getD []) (orig.getD []) (size_t orig_len) with
    | none => none
    | some c =>
      if c ≠ 0 then
        match hex_escape (result.getD []) result_len s with
        | none => none
        | some s =>
          let buf1 := s.str
          match hex_escape (orig.getD []) orig_len s with
          | none => none
          | some s =>
            let buf2 := s.str
            some (0, (ut_failure ("'" ++ buf1 ++ "' should be '" ++ buf2 ++ "'") s).2)
      else
        some (ut_success s)

/-- The function `ut_validate_string`, `ut.c` lines 254-271. -/
def ut_validate_string (result orig : Option String) (s : State) : Int × State :=
  if orig = none ∧ result ≠ none then
    ut_failure "should be NULL" s
  else if result = none ∧ orig ≠ none then
    ut_failure "should not be NULL" s
  else if result = none ∧ orig = none then
    ut_success s
  else if strcmp (result.getD "").data (orig.getD "").data ≠ 0 then
    let result2 := result.getD ""
    (0, (ut_failure ("'" ++ result2 ++ "' should be '" ++ orig.getD "" ++ "'") s).2)
  else
    ut_success s

/-- The function `ut_validate_double`, `ut.c` lines 273-281. -/
def ut_validate_double (result orig : CDouble) (s : State) : Int × State :=
  if (result.sub orig).fabs.gtInt DOUBLE_EPSILON then
    ut_failure (result.fmt_f ++ " should be " ++ orig.fmt_f) s
  else
    ut_success s

/-- The function `ut_validate_int`, `ut.c` lines 283-291. -/
def ut_validate_int (result orig : Int) (s : State) : Int × State :=
  if result ≠ orig then
    ut_failure (fmt_d result ++ " should be " ++ fmt_d orig) s
  else
    ut_success s

/-! ## Runs: sequences of calls -/

/-- One call of the library by a test program (all but `ut_init` and
`ut_summary`) that returns to it: a call of `ut_validate_buffer` comes with the
fact that it returns (which depends on its arguments only, see
`ut_validate_buffer_isSome`). -/
inductive Call
  | testing (msg : String)
  | section_ (subtitle : String)
  | progress (percentage : Int)
  | success
  | skip
  | failure (msg : String)
  | vfailure (msg : String)
  | result (r : Int) (msg : String)
  | vresult (r : Int) (msg : String)
  | validate_buffer (result : Option (List Int)) (result_len : Int)
      (orig : Option (List Int)) (orig_len : Int)
      (returns : (ut_validate_buffer result result_len orig orig_len State.initial).isSome = true)
  | validate_string (result orig : Option String)
  | validate_double (result orig : CDouble)
  | validate_int (result orig : Int)

/-- The state after one call (the case `none` of `ut_validate_buffer` does not
arise, by the fact the call carries). -/
def Call.step (s : State) : Call → State
  | .testing msg => ut_testing msg s
  | .section_ subtitle => ut_section subtitle s
  | .progress percentage => ut_progress percentage s
  | .success => (ut_success s).2
  | .skip => (ut_skip s).2
  | .failure msg => (ut_failure msg s).2
  | .vfailure msg => (ut_vfailure msg s).2
  | .result r msg => (ut_result r msg s).2
  | .vresult r msg => (ut_vresult r msg s).2
  | .validate_buffer res res_len orig orig_len _ =>
      match ut_validate_buffer res res_len orig orig_len s with
      | some p => p.2
      | none => s
  | .validate_string res orig => (ut_validate_string res orig s).2
  | .validate_double res orig => (ut_validate_double res orig s).2
  | .validate_int res orig => (ut_validate_int res orig s).2

/-- The state after a sequence of calls, in order. -/
def run (s : State) (calls : List Call) : State := calls.foldl Call.step s

/-- Whether the call is `ut_testing`. -/
def Call.isTesting : Call → Bool
  | .testing _ => true
  | _ => false

/-- Whether the call announces an outcome: success, skip, failure, result or
one of the comparators. -/
def Call.isOutcome : Call → Bool
  | .testing _ => false
  | .section_ _ => false
  | .progress _ => false
  | _ => true

/-! ## Vocabulary of the statements -/

/-- The text that erases `k` characters: `k` copies of backspace, blank,
backspace. -/
def eraseText : Nat → String
  | 0 => ""
  | k + 1 => "\x08 \x08" ++ eraseText k

/-- The state `s` with its five counters at 0, as they are at program start;
the terminal layout, the pending erase count and the output so far are those
of `s` (what `ut_init` has set up and printed, for instance). -/
def State.zeroed (s : State) : State :=
  { s with ut_tests := 0, ut_sections := 0, ut_succeeded := 0, ut_skipped := 0,
           ut_failed := 0 }

/-- The sum `ut_succeeded + ut_failed + ut_skipped`: the outcomes recorded. -/
def State.results (s : State) : Int := s.ut_succeeded + s.ut_failed + s.ut_skipped

/-- A call that went from `s` to `p.2` and returned `p.1` recorded exactly one
outcome, a success or a failure: one of `ut_succeeded`, `ut_failed` grew by 1
and the other is unchanged, the return value is 1 for the former and 0 for the
latter, and `ut_tests`, `ut_skipped`, `ut_sections` are unchanged. -/
def RecordsOneOutcome (s : State) (p : Int × State) : Prop :=
  ((p.1 = 1 ∧ p.2.ut_succeeded = s.ut_succeeded + 1 ∧ p.2.ut_failed = s.ut_failed) ∨
    (p.1 = 0 ∧ p.2.ut_failed = s.ut_failed + 1 ∧ p.2.ut_succeeded = s.ut_succeeded)) ∧
  p.2.ut_tests = s.ut_tests ∧ p.2.ut_skipped = s.ut_skipped ∧
  p.2.ut_sections = s.ut_sections

/-- What a comparator reports: a success, or a failure with its message. -/
inductive Verdict
  | success
  | failure (msg : String)
  deriving DecidableEq, Repr

/-- The announcement of a verdict: `ut_success()`, or `ut_failure` with the
message. -/
def Verdict.announce (v : Verdict) (s : State) : Int × State :=
  match v with
  | .success => ut_success s
  | .failure msg => ut_failure msg s

/-- The hex dump of the first `len` elements of `buf` as the code makes it: the
string that the `strcpy` and `sprintf` calls of `hex_escape(buf, len)` leave in
its buffer. -/
def hexDump (buf : List Int) (len : Int) : String :=
  hex_escape_loop buf len.toNat 0 2 "0x"

/-- The lowercase hexadecimal digit of a value below 16. -/
def hexDigit (n : Nat) : Char := "0123456789abcdef".data.getD n '?'

/-- The hex dump of the first `len` bytes of `buf` in the words of the
specification: `0x` followed by two lowercase hex digits per byte, no
separators. -/
def specHexDump (buf : List Int) (len : Int) : String :=
  "0x" ++ String.mk
    (((buf.take len.toNat).map
      (fun v => [hexDigit ((v % 256).toNat / 16), hexDigit ((v % 256).toNat % 16)])).flatten)

/-- The first `n` bytes of a buffer, each as a value 0..255. -/
def bytes (buf : List Int) (n : Nat) : List Int := (buf.take n).map (fun v => v % 256)

/-- A buffer argument and its length as the comparator may receive them: the
length is not negative and, when there is a buffer, lies within it. -/
def BufferArg (buf : Option (List Int)) (len : Int) : Prop :=
  0 ≤ len ∧ ∀ b, buf = some b → len ≤ (b.length : Int)

/-- The first `len` elements of the buffer, when there is one, are `char`
values that are not negative (bytes below 0x80 where `char` is signed). -/
def PlainChars (buf : Option (List Int)) (len : Int) : Prop :=
  ∀ b, buf = some b → ∀ v ∈ b.take len.toNat, 0 ≤ v ∧ v < 256

/-- The policy of `validateBuffer` in the words of the specification: seven
rules, each a condition and a verdict, in priority order; the dumps are those
of the specification, `specHexDump`. -/
def bufferRules (result : Option (List Int)) (result_len : Int)
    (orig : Option (List Int)) (orig_len : Int) : List (Bool × Verdict) :=
  [ (decide (orig = none ∧ result ≠ none),
      Verdict.failure ("'" ++ specHexDump (result.getD []) result_len ++ "' should be NULL")),
    (decide (result = none ∧ orig ≠ none),
      Verdict.failure "should not be NULL"),
    (decide (result = none ∧ result_len ≠ 0),
      Verdict.failure "NULL but len is not 0"),
    (decide (result_len ≠ orig_len),
      Verdict.failure
        ("result len == " ++ fmt_d result_len ++ " but should be " ++ fmt_d orig_len)),
    (decide (result = none ∧ orig = none),
      Verdict.success),
    (decide (bytes (result.getD []) orig_len.toNat ≠ bytes (orig.getD []) orig_len.toNat),
      Verdict.failure ("'" ++ specHexDump (result.getD []) result_len ++ "' should be '" ++
        specHexDump (orig.getD []) orig_len ++ "'")),
    (true, Verdict.success) ]

/-- The verdict of the first rule whose condition holds. -/
def firstApplicable : List (Bool × Verdict) → Option Verdict
  | [] => none
  | (c, v) :: rest => if c then some v else firstApplicable rest

/-- Whether the call is `ut_section`. -/
def Call.isSection : Call → Bool
  | .section_ _ => true
  | _ => false

/-- Whether the call records a failure: `ut_failure`, `ut_vfailure`,
`ut_result`/`ut_vresult` with `r == 0`, or a comparator that returns 0 (what a
comparator returns does not depend on the state, see `Call.step_failed`). -/
def Call.isFailure : Call → Bool
  | .failure _ => true
  | .vfailure _ => true
  | .result r _ => decide (r = 0)
  | .vresult r _ => decide (r = 0)
  | .validate_buffer a n b m _ =>
      decide ((ut_validate_buffer a n b m State.initial).map Prod.fst = some 0)
  | .validate_string a b => decide ((ut_validate_string a b State.initial).1 = 0)
  | .validate_double a b => decide ((ut_validate_double a b State.initial).1 = 0)
  | .validate_int a b => decide ((ut_validate_int a b State.initial).1 = 0)
  | _ => false

/-- The value of a byte 0x00..0xff read as a `char` where `char` is signed
(two's complement): 0x80..0xff are -128..-1. -/
def charOfByte (b : Nat) : Int := if b < 128 then (b : Int) else (b : Int) - 256

/-- A terminal in the sense of the progress display: the lines completed so
far, the cells of the current line (every cell is blank until something is
printed on it) and the column of the cursor. -/
structure Terminal where
  above : List (Nat → Char)
  row : Nat → Char
  col : Nat

/-- The terminal before any output: one blank line, the cursor in column 0. -/
def Terminal.initial : Terminal := { above := [], row := fun _ => ' ', col := 0 }

/-- One character sent to the terminal: a backspace moves the cursor one
column left (it stays in column 0), a newline starts a blank line, any other
character overwrites the cell under the cursor and moves the cursor right. -/
def Terminal.put (t : Terminal) (c : Char) : Terminal :=
  if c = '\x08' then { t with col := t.col - 1 }
  else if c = '\n' then { above := t.above ++ [t.row], row := fun _ => ' ', col := 0 }
  else { t with row := Function.update t.row t.col c, col := t.col + 1 }

/-- A text sent to the terminal, character by character. -/
def Terminal.feed (t : Terminal) (text : String) : Terminal := text.data.foldl Terminal.put t

/-- The terminal after everything the program has printed so far. -/
def State.screen (s : State) : Terminal := Terminal.initial.feed s.out

/-- Nothing is displayed at the cursor or right of it. -/
def Terminal.BlankFromCursor (t : Terminal) : Prop := ∀ i, t.col ≤ i → t.row i = ' '

/-- A character that the terminal displays: neither a backspace nor a
newline. -/
def Printable (c : Char) : Prop := c ≠ '\x08' ∧ c ≠ '\n'

instance Printable.decidable : DecidablePred Printable :=
  fun c => inferInstanceAs (Decidable (c ≠ '\x08' ∧ c ≠ '\n'))

/-- The percentages that the test program `ut_test.c` reports: `i/100` for
`i` from 0 to 9999. -/
def testProgressValues : List Int := (List.range 10000).map (fun i => ((i / 100 : Nat) : Int))

/-! ## Basic facts about the announcements -/

theorem ut_backspace_loop_eq (k : Nat) (s : State) :
    ut_backspace_loop k s =
      { s with out := s.out ++ eraseText k, backspace := s.backspace - k } := by
  induction k generalizing s with
  | zero => simp [ut_backspace_loop, eraseText]
  | succ k ih =>
    simp only [ut_backspace_loop, ih, State.print, eraseText, String.append_assoc]
    congr 1
    push_cast
    ring

theorem ut_backspace_eq (s : State) :
    ut_backspace s =
      { s with out := s.out ++ eraseText s.backspace.toNat,
               backspace := s.backspace - s.backspace.toNat } :=
  ut_backspace_loop_eq _ s

theorem ut_success_eq (s : State) :
    ut_success s =
      (1, { s with out := s.out ++ eraseText s.backspace.toNat ++ "ok\n",
                   backspace := s.backspace - s.backspace.toNat,
                   ut_succeeded := s.ut_succeeded + 1 }) := by
  simp [ut_success, ut_backspace_eq, State.print]

theorem ut_skip_eq (s : State) :
    ut_skip s =
      (1, { s with out := s.out ++ eraseText s.backspace.toNat ++ "skipped\n",
                   backspace := s.backspace - s.backspace.toNat,
                   ut_skipped := s.ut_skipped + 1 }) := by
  simp [ut_skip, ut_backspace_eq, State.print]

theorem ut_vfailure_eq (msg : String) (s : State) :
    ut_vfailure msg s =
      (0, { s with out := s.out ++ eraseText s.backspace.toNat ++ "FAILED " ++ msg ++ "\n",
                   backspace := s.backspace - s.backspace.toNat,
                   ut_failed := s.ut_failed + 1 }) := by
  simp [ut_vfailure, ut_backspace_eq, State.print]

theorem ut_failure_eq (msg : String) (s : State) :
    ut_failure msg s =
      (0, { s with out := s.out ++ eraseText s.backspace.toNat ++ "FAILED " ++ msg ++ "\n",
                   backspace := s.backspace - s.backspace.toNat,
                   ut_failed := s.ut_failed + 1 }) := by
  simp [ut_failure, ut_vfailure_eq]

/-! ## C9: outcome announcements -/

/-- C9: from every state, `ut_success` prints the pending erase and then
`ok` and a newline, adds 1 to `ut_succeeded` only and returns 1; `ut_skip`
prints `skipped` and a newline, adds 1 to `ut_skipped` only and returns 1;
`ut_failure` and `ut_vfailure` print `FAILED `, the formatted message and a
newline, add 1 to `ut_failed` only and return 0.  The other counters
(`ut_tests`, `ut_sections`, the two other outcome counters) keep their
values. -/
theorem outcome_announcements (s : State) (msg : String) :
    ((ut_success s).1 = 1 ∧
      (ut_success s).2.out = s.out ++ eraseText s.backspace.toNat ++ "ok\n" ∧
      (ut_success s).2.ut_succeeded = s.ut_succeeded + 1 ∧
      (ut_success s).2.ut_skipped = s.ut_skipped ∧
      (ut_success s).2.ut_failed = s.ut_failed ∧
      (ut_success s).2.ut_tests = s.ut_tests ∧
      (ut_success s).2.ut_sections = s.ut_sections) ∧
    ((ut_skip s).1 = 1 ∧
      (ut_skip s).2.out = s.out ++ eraseText s.backspace.toNat ++ "skipped\n" ∧
      (ut_skip s).2.ut_skipped = s.ut_skipped + 1 ∧
      (ut_skip s).2.ut_succeeded = s.ut_succeeded ∧
      (ut_skip s).2.ut_failed = s.ut_failed ∧
      (ut_skip s).2.ut_tests = s.ut_tests ∧
      (ut_skip s).2.ut_sections = s.ut_sections) ∧
    ((ut_failure msg s).1 = 0 ∧
      (ut_failure msg s).2.out =
        s.out ++ eraseText s.backspace.toNat ++ "FAILED " ++ msg ++ "\n" ∧
      (ut_failure msg s).2.ut_failed = s.ut_failed + 1 ∧
      (ut_failure msg s).2.ut_succeeded = s.ut_succeeded ∧
      (ut_failure msg s).2.ut_skipped = s.ut_skipped ∧
      (ut_failure msg s).2.ut_tests = s.ut_tests ∧
      (ut_failure msg s).2.ut_sections = s.ut_sections) ∧
    ((ut_vfailure msg s).1 = 0 ∧
      (ut_vfailure msg s).2.out =
        s.out ++ eraseText s.backspace.toNat ++ "FAILED " ++ msg ++ "\n" ∧
      (ut_vfailure msg s).2.ut_failed = s.ut_failed + 1 ∧
      (ut_vfailure msg s).2.ut_succeeded = s.ut_succeeded ∧
      (ut_vfailure msg s).2.ut_skipped = s.ut_skipped ∧
      (ut_vfailure msg s).2.ut_tests = s.ut_tests ∧
      (ut_vfailure msg s).2.ut_sections = s.ut_sections) := by
  simp [ut_success_eq, ut_skip_eq, ut_failure_eq, ut_vfailure_eq]

/-! ## C10: `ut_result` and `ut_vresult` -/

/-- C10: for every int `r`, `ut_result(r, message)` and `ut_vresult(r, message)`
leave the state that `ut_success()` leaves when `r` is non-zero (the message is
not printed) and the state that `ut_failure(message)` leaves when `r` is 0, and
they return `r` itself, not normalised to 0 or 1. -/
theorem ut_result_dispatch (r : Int) (msg : String) (s : State) :
    ut_result r msg s = (r, if r ≠ 0 then (ut_success s).2 else (ut_failure msg s).2) ∧
    ut_vresult r msg s = (r, if r ≠ 0 then (ut_success s).2 else (ut_failure msg s).2) := by
  by_cases h : r = 0 <;> simp [ut_result, ut_vresult, ut_failure, h]

/-! ## C7: `ut_validate_int` -/

/-- C7: for every pair of ints, `ut_validate_int(result, expected)` returns 1
exactly when `result == expected`, and then prints `ok`; otherwise it returns
0 and prints `FAILED <result> should be <expected>`, both values in signed
decimal.  From the start state (5,5) prints `ok` and (5,6) prints
`FAILED 5 should be 6`; a negative value is printed with its minus sign. -/
theorem ut_validate_int_spec (result orig : Int) (s : State) :
    ((ut_validate_int result orig s).1 = 1 ↔ result = orig) ∧
    (result = orig →
      (ut_validate_int result orig s).2.out =
        s.out ++ eraseText s.backspace.toNat ++ "ok\n") ∧
    (result ≠ orig →
      (ut_validate_int result orig s).1 = 0 ∧
      (ut_validate_int result orig s).2.out =
        s.out ++ eraseText s.backspace.toNat ++
          "FAILED " ++ fmt_d result ++ " should be " ++ fmt_d orig ++ "\n") ∧
    ut_validate_int 5 5 State.initial =
      (1, { State.initial with out := "ok\n", ut_succeeded := 1 }) ∧
    ut_validate_int 5 6 State.initial =
      (0, { State.initial with out := "FAILED 5 should be 6\n", ut_failed := 1 }) ∧
    (ut_validate_int (-12) 340 State.initial).2.out = "FAILED -12 should be 340\n" := by
  refine ⟨?_, ?_, ?_, by decide, by decide, by decide⟩
  · by_cases h : result = orig <;> simp [ut_validate_int, ut_success_eq, ut_failure_eq, h]
  · intro h
    simp [ut_validate_int, ut_success_eq, h]
  · intro h
    simp [ut_validate_int, ut_failure_eq, h, String.append_assoc]

/-! ## C3: the fatal path of `ut_summary` -/

theorem ut_summary_no_tests (s : State) (h : s.ut_tests = 0) :
    ut_summary s = (Completion.exited 99, (ut_failure "no tests" s).2) := by
  simp [ut_summary, h]

theorem ut_summary_mismatch (s : State) (h0 : s.ut_tests ≠ 0)
    (h : s.ut_succeeded + s.ut_failed + s.ut_skipped ≠ s.ut_tests) :
    ut_summary s = (Completion.exited 99,
      (ut_failure ("number of tests (" ++ fmt_d s.ut_tests ++
        ") does not match number of results (" ++
        fmt_d (s.ut_succeeded + s.ut_failed + s.ut_skipped) ++ ")") s).2) := by
  simp [ut_summary, h0, h]

theorem ut_summary_ok (s : State) (h0 : s.ut_tests ≠ 0)
    (h : s.ut_succeeded + s.ut_failed + s.ut_skipped = s.ut_tests) :
    ut_summary s = (Completion.returned,
      { s with out := s.out ++ "==> Summary: " ++ fmt_d s.ut_tests ++ " tests, " ++
          fmt_d s.ut_succeeded ++ " succeeded" ++
          (if s.ut_failed ≠ 0 then ", " ++ fmt_d s.ut_failed ++ " failed" else "") ++
          (if s.ut_skipped ≠ 0 then ", " ++ fmt_d s.ut_skipped ++ " skipped" else "") ++
          ".\n" }) := by
  have hr : ¬ (s.ut_succeeded + s.ut_failed + s.ut_skipped ≠ s.ut_tests) := fun c => c h
  unfold ut_summary
  simp only [if_neg h0, if_neg hr]
  by_cases hf : s.ut_failed = 0 <;> by_cases hs : s.ut_skipped = 0 <;>
    simp [hf, hs, State.print, String.append_assoc]

/-- C3: `ut_summary` takes the fatal path (a `FAILED` diagnostic, then
`exit(99)`) exactly when `ut_tests` differs from
`ut_succeeded + ut_failed + ut_skipped` or `ut_tests` is 0.  The diagnostic is
`FAILED no tests` when `ut_tests` is 0, whatever the other counters are, and
otherwise `FAILED number of tests (<tests>) does not match number of results
(<sum>)`, both numbers in decimal.  In every other state it returns without
exiting, and it never exits with another status. -/
theorem ut_summary_fatal_iff (s : State) :
    ((ut_summary s).1 = Completion.exited 99 ↔
      (s.ut_tests ≠ s.ut_succeeded + s.ut_failed + s.ut_skipped ∨ s.ut_tests = 0)) ∧
    (s.ut_tests = 0 →
      (ut_summary s).2.out =
        s.out ++ eraseText s.backspace.toNat ++ "FAILED no tests\n") ∧
    (s.ut_tests ≠ 0 → s.ut_tests ≠ s.ut_succeeded + s.ut_failed + s.ut_skipped →
      (ut_summary s).2.out =
        s.out ++ eraseText s.backspace.toNat ++ "FAILED number of tests (" ++
          fmt_d s.ut_tests ++ ") does not match number of results (" ++
          fmt_d (s.ut_succeeded + s.ut_failed + s.ut_skipped) ++ ")\n") ∧
    (¬ (s.ut_tests ≠ s.ut_succeeded + s.ut_failed + s.ut_skipped ∨ s.ut_tests = 0) →
      (ut_summary s).1 = Completion.returned) ∧
    (ut_summary { State.initial with ut_tests := 3, ut_succeeded := 1, ut_failed := 1 }).2.out =
      "FAILED number of tests (3) does not match number of results (2)\n" := by
  refine ⟨?_, ?_, ?_, ?_, by decide⟩
  · by_cases h0 : s.ut_tests = 0
    · simp [ut_summary_no_tests s h0, h0]
    · by_cases h : s.ut_succeeded + s.ut_failed + s.ut_skipped = s.ut_tests
      · simp [ut_summary_ok s h0 h, h0, h]
      · have h2 : s.ut_tests ≠ s.ut_succeeded + s.ut_failed + s.ut_skipped :=
          fun e => h e.symm
        simp [ut_summary_mismatch s h0 h, h2]
  · intro h0
    simp only [ut_summary_no_tests s h0, ut_failure_eq, String.append_assoc]
    rfl
  · intro h0 h
    rw [ut_summary_mismatch s h0 (fun e => h e.symm)]
    simp only [ut_failure_eq, String.append_assoc]
    rfl
  · intro h
    have h0 : s.ut_tests ≠ 0 := fun e => h (Or.inr e)
    have h1 : s.ut_succeeded + s.ut_failed + s.ut_skipped = s.ut_tests := by
      by_contra hne
      exact h (Or.inl (fun e => hne e.symm))
    simp [ut_summary_ok s h0 h1]

/-! ## C8: every comparator records exactly one outcome -/

theorem ut_success_records (s : State) : RecordsOneOutcome s (ut_success s) := by
  simp [RecordsOneOutcome, ut_success_eq]

theorem ut_failure_records (msg : String) (s : State) :
    RecordsOneOutcome s (ut_failure msg s) := by
  simp [RecordsOneOutcome, ut_failure_eq]

theorem ut_validate_int_records (result orig : Int) (s : State) :
    RecordsOneOutcome s (ut_validate_int result orig s) := by
  unfold ut_validate_int
  split_ifs
  · exact ut_failure_records _ s
  · exact ut_success_records s

theorem ut_validate_double_records (result orig : CDouble) (s : State) :
    RecordsOneOutcome s (ut_validate_double result orig s) := by
  unfold ut_validate_double
  split_ifs
  · exact ut_failure_records _ s
  · exact ut_success_records s

theorem ut_validate_string_records (result orig : Option String) (s : State) :
    RecordsOneOutcome s (ut_validate_string result orig s) := by
  unfold ut_validate_string
  split_ifs <;> simp [RecordsOneOutcome, ut_success_eq, ut_failure_eq]

theorem Verdict.announce_frame (v : Verdict) (s : State) (x : String) :
    (v.announce { s with str := x }).1 = (v.announce s).1 ∧
    { (v.announce { s with str := x }).2 with str := s.str } = (v.announce s).2 ∧
    ((v.announce { s with str := x }).1 = 1 ↔ v = Verdict.success) ∧
    ((v.announce { s with str := x }).1 = 0 ↔ ∃ msg, v = Verdict.failure msg) := by
  cases v <;> simp [Verdict.announce, ut_success_eq, ut_failure_eq]

theorem Verdict.announce_records (v : Verdict) (s : State) (x : String) :
    RecordsOneOutcome s (v.announce { s with str := x }) := by
  cases v <;> simp [Verdict.announce, RecordsOneOutcome, ut_success_eq, ut_failure_eq]

theorem ut_failure_pair (msg : String) (s : State) :
    (0, (ut_failure msg s).2) = ut_failure msg s := by
  simp [ut_failure_eq]

theorem hex_escape_eq_some (buf : List Int) (len : Int) (s t : State)
    (h : hex_escape buf len s = some t) : t = { s with str := hexDump buf len } := by
  unfold hex_escape at h
  split_ifs at h
  cases h
  rfl

theorem hex_escape_of_within (buf : List Int) (len : Int) (s : State) (h0 : 0 ≤ len)
    (h1 : len ≤ (buf.length : Int)) :
    hex_escape buf len s = some { s with str := hexDump buf len } := by
  unfold hex_escape
  rw [if_neg (by omega), if_neg (by omega)]
  rfl

theorem ut_validate_buffer_announces (a : Option (List Int)) (n : Int)
    (b : Option (List Int)) (m : Int) (s : State) (p : Int × State)
    (h : ut_validate_buffer a n b m s = some p) :
    ∃ (v : Verdict) (x : String), p = v.announce { s with str := x } := by
  have hs : ∀ v : Verdict, some (v.announce s) = some p →
      ∃ (v : Verdict) (x : String), p = v.announce { s with str := x } :=
    fun v hv => ⟨v, s.str, (Option.some.inj hv).symm⟩
  have hf : ∀ (buf : List Int) (len : Int) (f : String → String),
      (match hex_escape buf len s with
        | none => none
        | some t => some (ut_failure (f t.str) t)) = some p →
      ∃ (v : Verdict) (x : String), p = v.announce { s with str := x } := by
    intro buf len f hh
    cases h1 : hex_escape buf len s with
    | none => simp [h1] at hh
    | some t =>
      simp only [h1, Option.some.injEq] at hh
      rw [hex_escape_eq_some _ _ _ _ h1] at hh
      exact ⟨Verdict.failure _, _, hh.symm⟩
  unfold ut_validate_buffer at h
  cases hm : memcmp (a.getD []) (b.getD []) (size_t m) with
  | none =>
    simp only [hm] at h
    split_ifs at h
    · exact hf _ _ (fun x => "'" ++ x ++ "' should be NULL") h
    · exact hs (Verdict.failure _) h
    · exact hs (Verdict.failure _) h
    · exact hs (Verdict.failure _) h
    · exact hs Verdict.success h
  | some c =>
    simp only [hm] at h
    split_ifs at h
    · exact hf _ _ (fun x => "'" ++ x ++ "' should be NULL") h
    · exact hs (Verdict.failure _) h
    · exact hs (Verdict.failure _) h
    · exact hs (Verdict.failure _) h
    · exact hs Verdict.success h
    · cases h1 : hex_escape (a.getD []) n s with
      | none => simp [h1] at h
      | some t =>
        simp only [h1] at h
        cases h2 : hex_escape (b.getD []) m t with
        | none => simp [h2] at h
        | some u =>
          simp only [h2, Option.some.injEq] at h
          rw [ut_failure_pair, hex_escape_eq_some _ _ _ _ h2, hex_escape_eq_some _ _ _ _ h1] at h
          exact ⟨Verdict.failure _, _, h.symm⟩
    · exact hs Verdict.success h

theorem ut_validate_buffer_records (a : Option (List Int)) (n : Int)
    (b : Option (List Int)) (m : Int) (s : State) (p : Int × State)
    (h : ut_validate_buffer a n b m s = some p) : RecordsOneOutcome s p := by
  obtain ⟨v, x, hp⟩ := ut_validate_buffer_announces a n b m s p h
  rw [hp]
  exact Verdict.announce_records v s x

theorem hex_escape_isSome (buf : List Int) (len : Int) (s t : State) :
    (hex_escape buf len s).isSome = (hex_escape buf len t).isSome := by
  unfold hex_escape
  split_ifs <;> rfl

theorem ut_validate_buffer_ret (a : Option (List Int)) (n : Int) (b : Option (List Int))
    (m : Int) (s t : State) :
    (ut_validate_buffer a n b m s).map Prod.fst = (ut_validate_buffer a n b m t).map Prod.fst := by
  have hf : ∀ (buf : List Int) (len : Int) (f : String → String),
      (match hex_escape buf len s with
        | none => none
        | some u => some (ut_failure (f u.str) u)).map Prod.fst =
      (match hex_escape buf len t with
        | none => none
        | some u => some (ut_failure (f u.str) u)).map Prod.fst := by
    intro buf len f
    unfold hex_escape
    split_ifs <;> simp [ut_failure_eq]
  have hg : ∀ (b1 b2 : List Int) (l1 l2 : Int),
      (match hex_escape b1 l1 s with
        | none => none
        | some u =>
          match hex_escape b2 l2 u with
          | none => none
          | some w =>
            some ((0 : Int), (ut_failure ("'" ++ u.str ++ "' should be '" ++ w.str ++ "'") w).2)).map
        Prod.fst =
      (match hex_escape b1 l1 t with
        | none => none
        | some u =>
          match hex_escape b2 l2 u with
          | none => none
          | some w =>
            some ((0 : Int), (ut_failure ("'" ++ u.str ++ "' should be '" ++ w.str ++ "'") w).2)).map
        Prod.fst := by
    intro b1 b2 l1 l2
    unfold hex_escape
    split_ifs <;> simp
  unfold ut_validate_buffer
  cases memcmp (a.getD []) (b.getD []) (size_t m) with
  | none =>
    simp only []
    split_ifs
    · exact hf _ _ (fun x => "'" ++ x ++ "' should be NULL")
    all_goals simp [ut_success_eq, ut_failure_eq]
  | some c =>
    simp only []
    split_ifs
    · exact hf _ _ (fun x => "'" ++ x ++ "' should be NULL")
    · simp [ut_failure_eq]
    · simp [ut_failure_eq]
    · simp [ut_failure_eq]
    · simp [ut_success_eq]
    · exact hg _ _ _ _
    · simp [ut_success_eq]

theorem ut_validate_buffer_isSome (a : Option (List Int)) (n : Int) (b : Option (List Int))
    (m : Int) (s t : State) :
    (ut_validate_buffer a n b m s).isSome = (ut_validate_buffer a n b m t).isSome := by
  have h := congrArg Option.isSome (ut_validate_buffer_ret a n b m s t)
  simpa using h

theorem Call.step_validate_buffer (a : Option (List Int)) (n : Int) (b : Option (List Int))
    (m : Int) (hret : (ut_validate_buffer a n b m State.initial).isSome = true) (s : State) :
    ∃ p, ut_validate_buffer a n b m s = some p ∧
      (Call.validate_buffer a n b m hret).step s = p.2 ∧
      ((Call.validate_buffer a n b m hret).isFailure = true ↔ p.1 = 0) := by
  have h1 : (ut_validate_buffer a n b m s).isSome = true := by
    rw [ut_validate_buffer_isSome a n b m s State.initial]; exact hret
  obtain ⟨p, hp⟩ := Option.isSome_iff_exists.mp h1
  refine ⟨p, hp, by simp [Call.step, hp], ?_⟩
  have h2 := ut_validate_buffer_ret a n b m State.initial s
  rw [hp] at h2
  simp [Call.isFailure, h2]

theorem ut_testing_pad_eq (k : Nat) (s : State) :
    ut_testing_pad k s = { s with out := s.out ++ pad ' ' k } := by
  induction k generalizing s with
  | zero =>
    show s = { s with out := s.out ++ "" }
    rw [String.append_empty]
  | succ k ih =>
    simp only [ut_testing_pad, ih, State.print, String.append_assoc]
    rfl

theorem ut_testing_eq (msg : String) (s : State) :
    ut_testing msg s =
      { s with ut_tests := s.ut_tests + 1,
               out := s.out ++ (fmt_sp3d (s.ut_tests + 1) ++ " ") ++ msg ++
                 pad ' ' (s.left_width - 3 - (msg.length : Int)).toNat } := by
  simp [ut_testing, ut_testing_pad_eq, State.print]

theorem RecordsOneOutcome.results {s : State} {p : Int × State}
    (h : RecordsOneOutcome s p) : p.2.results = s.results + 1 ∧ p.2.ut_tests = s.ut_tests := by
  obtain ⟨h1, h2, h3, _⟩ := h
  refine ⟨?_, h2⟩
  unfold State.results
  rcases h1 with ⟨_, ha, hb⟩ | ⟨_, ha, hb⟩ <;> rw [ha, hb, h3] <;> ring

theorem Call.step_counters (c : Call) (s : State) :
    (c.step s).ut_tests = s.ut_tests + (if c.isTesting then 1 else 0) ∧
    (c.step s).results = s.results + (if c.isOutcome then 1 else 0) := by
  cases c with
  | testing msg => simp [Call.step, Call.isTesting, Call.isOutcome, ut_testing_eq, State.results]
  | section_ t =>
    by_cases h : s.ut_sections > 0 <;>
      simp [Call.step, Call.isTesting, Call.isOutcome, ut_section, State.print,
        State.results, h]
  | progress n =>
    simp [Call.step, Call.isTesting, Call.isOutcome, ut_progress, ut_backspace_eq,
      State.print, State.results]
  | success =>
    simp [Call.step, Call.isTesting, Call.isOutcome, ut_success_eq, State.results]
    ring
  | skip =>
    simp [Call.step, Call.isTesting, Call.isOutcome, ut_skip_eq, State.results]
    ring
  | failure msg =>
    simp [Call.step, Call.isTesting, Call.isOutcome, ut_failure_eq, State.results]
    ring
  | vfailure msg =>
    simp [Call.step, Call.isTesting, Call.isOutcome, ut_vfailure_eq, State.results]
    ring
  | result r msg =>
    by_cases h : r = 0 <;>
      simp [Call.step, Call.isTesting, Call.isOutcome, ut_result, ut_vresult, ut_success_eq,
        ut_vfailure_eq, State.results, h] <;> ring
  | vresult r msg =>
    by_cases h : r = 0 <;>
      simp [Call.step, Call.isTesting, Call.isOutcome, ut_vresult, ut_success_eq,
        ut_vfailure_eq, State.results, h] <;> ring
  | validate_buffer a n b m hret =>
    obtain ⟨p, hp, hstep, _⟩ := Call.step_validate_buffer a n b m hret s
    have h := (ut_validate_buffer_records a n b m s p hp).results
    rw [hstep]
    simp [Call.isTesting, Call.isOutcome, h.1, h.2]
  | validate_string a b =>
    have h := (ut_validate_string_records a b s).results
    simp [Call.step, Call.isTesting, Call.isOutcome, h.1, h.2]
  | validate_double a b =>
    have h := (ut_validate_double_records a b s).results
    simp [Call.step, Call.isTesting, Call.isOutcome, h.1, h.2]
  | validate_int a b =>
    have h := (ut_validate_int_records a b s).results
    simp [Call.step, Call.isTesting, Call.isOutcome, h.1, h.2]

theorem run_counters (calls : List Call) (s : State) :
    (run s calls).ut_tests = s.ut_tests + (calls.countP Call.isTesting : Int) ∧
    (run s calls).results = s.results + (calls.countP Call.isOutcome : Int) := by
  induction calls generalizing s with
  | nil => simp [run]
  | cons c cs ih =>
    have hc := Call.step_counters c s
    have hs := ih (c.step s)
    simp only [run, List.foldl_cons] at hs ⊢
    rw [hs.1, hs.2, hc.1, hc.2, List.countP_cons, List.countP_cons]
    constructor <;> push_cast <;> ring

theorem run_zeroed_counters (s : State) (calls : List Call) :
    (run s.zeroed calls).ut_tests = (calls.countP Call.isTesting : Int) ∧
    (run s.zeroed calls).ut_succeeded + (run s.zeroed calls).ut_failed +
      (run s.zeroed calls).ut_skipped = (calls.countP Call.isOutcome : Int) := by
  have h := run_counters calls s.zeroed
  constructor
  · rw [h.1]; simp [State.zeroed]
  · have := h.2
    simp only [State.results] at this
    rw [this]; simp [State.zeroed]

/-- C1: from an initial state (all counters 0, the program start state
`State.initial` among them), with int overflow left out, after every finite
sequence of calls of `ut_testing`, `ut_section`, `ut_progress`, `ut_success`,
`ut_skip`, `ut_failure`/`ut_vfailure`, `ut_result`/`ut_vresult` and the four
comparators, `ut_tests` is the number of `ut_testing` calls and
`ut_succeeded + ut_failed + ut_skipped` is the number of outcome calls; so the
two are equal whenever the sequence has as many outcome calls as `ut_testing`
calls. -/
theorem counters_after_run (s : State) (calls : List Call) :
    State.initial.zeroed = State.initial ∧
    (run s.zeroed calls).ut_tests = (calls.countP Call.isTesting : Int) ∧
    (run s.zeroed calls).ut_succeeded + (run s.zeroed calls).ut_failed +
      (run s.zeroed calls).ut_skipped = (calls.countP Call.isOutcome : Int) ∧
    (calls.countP Call.isOutcome = calls.countP Call.isTesting →
      (run s.zeroed calls).ut_tests =
        (run s.zeroed calls).ut_succeeded + (run s.zeroed calls).ut_failed +
          (run s.zeroed calls).ut_skipped) := by
  have h := run_zeroed_counters s calls
  refine ⟨rfl, h.1, h.2, fun e => ?_⟩
  rw [h.1, h.2, e]

/-! ## C2: `ut_summary` after a matched run -/

/-- C2, counterexample: the empty run has as many outcome calls as
`ut_testing` calls (none of either), and `ut_summary` after it takes the fatal
path: it prints `FAILED no tests` and exits with status 99. -/
theorem summary_after_empty_run_is_fatal :
    List.countP Call.isOutcome ([] : List Call) = List.countP Call.isTesting ([] : List Call) ∧
    ut_summary (run State.initial []) =
      (Completion.exited 99,
        { State.initial with out := "FAILED no tests\n", ut_failed := 1 }) := by
  decide

/-- C2, amended: after every sequence of calls from an initial state (all
counters 0) that has at least one `ut_testing` call and as many outcome calls
as `ut_testing` calls, `ut_summary` does not take the fatal path: it returns
without exiting and prints the summary line. -/
theorem summary_after_matched_run (s : State) (calls : List Call)
    (hpos : 0 < calls.countP Call.isTesting)
    (hmatch : calls.countP Call.isOutcome = calls.countP Call.isTesting) :
    (ut_summary (run s.zeroed calls)).1 = Completion.returned ∧
    (ut_summary (run s.zeroed calls)).2.out =
      (run s.zeroed calls).out ++ "==> Summary: " ++
        fmt_d (run s.zeroed calls).ut_tests ++ " tests, " ++
        fmt_d (run s.zeroed calls).ut_succeeded ++ " succeeded" ++
        (if (run s.zeroed calls).ut_failed ≠ 0
          then ", " ++ fmt_d (run s.zeroed calls).ut_failed ++ " failed" else "") ++
        (if (run s.zeroed calls).ut_skipped ≠ 0
          then ", " ++ fmt_d (run s.zeroed calls).ut_skipped ++ " skipped" else "") ++
        ".\n" := by
  have h := run_zeroed_counters s calls
  have h2 : (run s.zeroed calls).ut_succeeded + (run s.zeroed calls).ut_failed +
      (run s.zeroed calls).ut_skipped = (run s.zeroed calls).ut_tests := by
    rw [h.1, h.2, hmatch]
  have h0 : (run s.zeroed calls).ut_tests ≠ 0 := by
    rw [h.1]
    exact_mod_cast hpos.ne'
  rw [ut_summary_ok _ h0 h2]
  exact ⟨rfl, rfl⟩

/-- C2, witness: the calls of the test program `ut_test.c` (with two progress
reports in place of its ten thousand) are four `ut_testing` calls and four
outcome calls, and `ut_summary` returns after them, having printed the summary
of four tests that all succeeded. -/
theorem summary_after_matched_run_witness :
    0 < List.countP Call.isTesting
      [Call.section_ "Test Section", Call.testing "Testing integer", Call.validate_int 5 5,
        Call.testing "Testing strings", Call.validate_string (some "CIAO") (some "CIAO"),
        Call.testing "Testing doubles",
        Call.validate_double (.finite ⟨8917127262193582, -53⟩)
          (.finite ⟨8917127262193582, -53⟩),
        Call.testing "Testing progress", Call.progress 0, Call.progress 99, Call.success] ∧
    (ut_summary (run State.initial.zeroed
      [Call.section_ "Test Section", Call.testing "Testing integer", Call.validate_int 5 5,
        Call.testing "Testing strings", Call.validate_string (some "CIAO") (some "CIAO"),
        Call.testing "Testing doubles",
        Call.validate_double (.finite ⟨8917127262193582, -53⟩)
          (.finite ⟨8917127262193582, -53⟩),
        Call.testing "Testing progress", Call.progress 0, Call.progress 99,
        Call.success])).1 = Completion.returned :=
  ⟨by decide, (summary_after_matched_run _ _ (by decide) (by decide)).1⟩

/-! ## C5: `ut_validate_string` -/

theorem strcmp_eq_zero_iff (a b : List Char) : strcmp a b = 0 ↔ a = b := by
  induction a generalizing b with
  | nil => cases b <;> simp [strcmp]
  | cons x a ih =>
    cases b with
    | nil => simp [strcmp]
    | cons y b =>
      simp only [strcmp, List.cons.injEq]
      split_ifs with h1 h2
      · simp only [Int.reduceNeg, neg_eq_zero, one_ne_zero, false_iff, not_and]
        intro e
        rw [e] at h1
        exact absurd h1 (lt_irrefl _)
      · simp only [one_ne_zero, false_iff, not_and]
        intro e
        rw [e] at h2
        exact absurd h2 (lt_irrefl _)
      · have hxy : x = y := by
          apply Char.ext
          apply UInt32.ext
          exact le_antisymm (not_lt.mp h2) (not_lt.mp h1)
        simp [hxy, ih]

/-- C5: for every pair of nullable strings, `ut_validate_string(result,
expected)` returns 1 if and only if both are null or both are non-null with
equal contents, and then prints `ok`; with `expected` null and `result` not it
fails with the message `should be NULL`; with `result` null and `expected` not
it fails with `should not be NULL`; with both non-null and different it fails
with `'<result>' should be '<expected>'`, both strings verbatim; every failure
returns 0. -/
theorem ut_validate_string_spec (result orig : Option String) (s : State) :
    ((ut_validate_string result orig s).1 = 1 ↔
      ((result = none ∧ orig = none) ∨ (∃ a, result = some a ∧ orig = some a))) ∧
    ((ut_validate_string result orig s).1 = 1 →
      (ut_validate_string result orig s).2.out =
        s.out ++ eraseText s.backspace.toNat ++ "ok\n") ∧
    (orig = none → result ≠ none →
      ut_validate_string result orig s = ut_failure "should be NULL" s) ∧
    (result = none → orig ≠ none →
      ut_validate_string result orig s = ut_failure "should not be NULL" s) ∧
    (∀ a b, result = some a → orig = some b → a ≠ b →
      ut_validate_string result orig s =
        ut_failure ("'" ++ a ++ "' should be '" ++ b ++ "'") s) ∧
    ((ut_validate_string result orig s).1 = 1 ∨ (ut_validate_string result orig s).1 = 0) ∧
    (ut_validate_string (some "CIAO") (some "CIAO") State.initial).2.out = "ok\n" ∧
    (ut_validate_string none (some "x") State.initial).2.out =
      "FAILED should not be NULL\n" ∧
    (ut_validate_string (some "x") none State.initial).2.out = "FAILED should be NULL\n" ∧
    (ut_validate_string (some "CIAO") (some "CIAo") State.initial).2.out =
      "FAILED 'CIAO' should be 'CIAo'\n" := by
  have hdata : ∀ a b : String, strcmp a.data b.data = 0 ↔ a = b := by
    intro a b
    rw [strcmp_eq_zero_iff]
    exact ⟨fun h => String.ext h, fun h => by rw [h]⟩
  refine ⟨?_, ?_, ?_, ?_, ?_, ?_, by decide, by decide, by decide, by decide⟩
  · cases result with
    | none => cases orig <;> simp [ut_validate_string, ut_success_eq, ut_failure_eq]
    | some a =>
      cases orig with
      | none => simp [ut_validate_string, ut_failure_eq]
      | some b =>
        have hsymm : b = a ↔ a = b := eq_comm
        by_cases h : a = b <;>
          simp [ut_validate_string, ut_success_eq, ut_failure_eq, hdata, h, hsymm]
  · cases result with
    | none => cases orig <;> simp [ut_validate_string, ut_success_eq, ut_failure_eq]
    | some a =>
      cases orig with
      | none => simp [ut_validate_string, ut_failure_eq]
      | some b =>
        by_cases h : a = b <;>
          simp [ut_validate_string, ut_success_eq, ut_failure_eq, hdata, h]
  · intro h1 h2
    simp [ut_validate_string, h1, h2]
  · intro h1 h2
    simp [ut_validate_string, h1, h2]
  · intro a b ha hb hab
    simp [ut_validate_string, ha, hb, hdata, hab, ut_failure_eq]
  · cases result with
    | none => cases orig <;> simp [ut_validate_string, ut_success_eq, ut_failure_eq]
    | some a =>
      cases orig with
      | none => simp [ut_validate_string, ut_failure_eq]
      | some b =>
        by_cases h : a = b <;>
          simp [ut_validate_string, ut_success_eq, ut_failure_eq, hdata, h]

/-! ## C6: `ut_validate_double` -/

theorem ut_validate_double_self (x : Double) (s : State) :
    ut_validate_double (.finite x) (.finite x) s = ut_success s := by
  have hsub : x.sub x = { m := 0, e := x.e } := by
    simp [Double.sub, Double.round, bitLength, bitLengthAux, roundShift]
  have h : ((CDouble.finite x).sub (CDouble.finite x)).fabs.gtInt DOUBLE_EPSILON = false := by
    simp only [CDouble.sub, hsub, Double.overflows, ne_eq, not_true_eq_false, false_and,
      decide_False, Bool.false_eq_true, if_false, CDouble.fabs, fabs, abs_zero,
      CDouble.gtInt, Double.gtInt, DOUBLE_EPSILON]
    split_ifs <;> simp
  simp [ut_validate_double, h]

/-- C6, the code at the failing input: `DOUBLE_EPSILON` is the integer 1, and
`ut_validate_double(0.25, 0.75)`, two values that differ by 0.5, reports a
success: it returns 1, prints `ok`, adds 1 to `ut_succeeded` and leaves
`ut_failed` at 0. -/
theorem ut_validate_double_half_apart :
    DOUBLE_EPSILON = 1 ∧
    ut_validate_double (.finite ⟨1, -2⟩) (.finite ⟨3, -2⟩) State.initial =
      (1, { State.initial with out := "ok\n", ut_succeeded := 1 }) ∧
    (ut_validate_double (.finite ⟨1, -2⟩) (.finite ⟨3, -2⟩) State.initial).2.ut_failed = 0 := by
  decide

/-! ## C4: the ordered policy of `ut_validate_buffer` -/

set_option maxRecDepth 100000 in
theorem fmt_02x_byte (n : Nat) (h : n < 256) :
    fmt_02x (n : Int) = String.mk [hexDigit (n / 16), hexDigit (n % 16)] := by
  revert n
  decide

theorem fmt_02x_plain (v : Int) (h0 : 0 ≤ v) (h1 : v < 256) :
    fmt_02x v =
      String.mk [hexDigit ((v % 256).toNat / 16), hexDigit ((v % 256).toNat % 16)] := by
  have hv : v % 256 = v := Int.emod_eq_of_lt h0 h1
  have hn : ((v.toNat : Nat) : Int) = v := Int.toNat_of_nonneg h0
  rw [hv, ← hn, Int.toNat_ofNat]
  exact fmt_02x_byte v.toNat (by omega)

theorem sprintf_at_end (str text : String) : sprintf_at str str.length text = str ++ text := by
  unfold sprintf_at
  rw [String.length, List.take_length]
  rfl

theorem hex_escape_loop_plain (buf : List Int) (k i : Nat) (str : String)
    (hk : i + k ≤ buf.length)
    (hv : ∀ v ∈ (buf.drop i).take k, 0 ≤ v ∧ v < 256) :
    hex_escape_loop buf k i str.length str =
      str ++ String.mk ((((buf.drop i).take k).map
        (fun v => [hexDigit ((v % 256).toNat / 16), hexDigit ((v % 256).toNat % 16)])).flatten) := by
  induction k generalizing i str with
  | zero =>
    simp only [hex_escape_loop, List.take_zero, List.map_nil, List.flatten_nil]
    exact (String.append_empty str).symm
  | succ k ih =>
    have hi : i < buf.length := by omega
    have hdrop : buf.drop i = buf[i] :: buf.drop (i + 1) := List.drop_eq_getElem_cons hi
    have hget : buf.getD i 0 = buf[i] := by
      rw [List.getD_eq_getElem?_getD, List.getElem?_eq_getElem hi]
      rfl
    have hhead : (0 : Int) ≤ buf[i] ∧ buf[i] < 256 := by
      apply hv
      rw [hdrop, List.take_succ_cons]
      exact List.mem_cons_self _ _
    have htail : ∀ v ∈ (buf.drop (i + 1)).take k, 0 ≤ v ∧ v < 256 := by
      intro v hmem
      apply hv
      rw [hdrop, List.take_succ_cons]
      exact List.mem_cons_of_mem _ hmem
    have hlen : (str ++ fmt_02x buf[i]).length = str.length + 2 := by
      rw [String.length_append, fmt_02x_plain _ hhead.1 hhead.2]
      rfl
    simp only [hex_escape_loop, hget, sprintf_at_end]
    rw [← hlen, ih (i + 1) (str ++ fmt_02x buf[i]) (by omega) htail, hdrop,
      List.take_succ_cons, List.map_cons, List.flatten_cons, String.append_assoc,
      fmt_02x_plain _ hhead.1 hhead.2]
    rfl

theorem hexDump_plain (buf : List Int) (len : Int) (hlen : len ≤ (buf.length : Int))
    (hv : ∀ v ∈ buf.take len.toNat, 0 ≤ v ∧ v < 256) :
    hexDump buf len = specHexDump buf len := by
  have h := hex_escape_loop_plain buf len.toNat 0 "0x" (by omega) (by simpa using hv)
  simpa [hexDump, specHexDump] using h

theorem memcmp_eq_zero_iff (n : Nat) (a b : List Int) (ha : n ≤ a.length)
    (hb : n ≤ b.length) :
    ∃ c, memcmp a b n = some c ∧ (c = 0 ↔ bytes a n = bytes b n) := by
  induction n generalizing a b with
  | zero => exact ⟨0, by cases a <;> cases b <;> rfl, by simp [bytes]⟩
  | succ n ih =>
    cases a with
    | nil => simp at ha
    | cons x a =>
      cases b with
      | nil => simp at hb
      | cons y b =>
        obtain ⟨c, hc, hiff⟩ := ih a b (by simpa using ha) (by simpa using hb)
        simp only [bytes] at hiff
        simp only [memcmp, bytes, List.take_succ_cons, List.map_cons, List.cons.injEq]
        split_ifs with h1 h2
        · refine ⟨-1, rfl, ?_⟩
          simp only [Int.reduceNeg, neg_eq_zero, one_ne_zero, false_iff, not_and]
          intro e
          rw [e] at h1
          exact absurd h1 (lt_irrefl _)
        · refine ⟨1, rfl, ?_⟩
          simp only [one_ne_zero, false_iff, not_and]
          intro e
          rw [e] at h2
          exact absurd h2 (lt_irrefl _)
        · have hxy : x % 256 = y % 256 := le_antisymm (not_lt.mp h2) (not_lt.mp h1)
          exact ⟨c, hc, by simp [hxy, hiff]⟩

/-- The part of the policy that holds: for well-formed arguments whose `char`
values are not negative, `ut_validate_buffer` returns, and it announces the
verdict of the first rule of `bufferRules` that applies, with the dumps of the
specification. -/
theorem ut_validate_buffer_policy (result : Option (List Int)) (result_len : Int)
    (orig : Option (List Int)) (orig_len : Int) (s : State)
    (hr : BufferArg result result_len) (ho : BufferArg orig orig_len)
    (hpr : PlainChars result result_len) (hpo : PlainChars orig orig_len)
    (hsize : orig_len < 2 ^ 64) :
    ∃ v x, firstApplicable (bufferRules result result_len orig orig_len) = some v ∧
      ut_validate_buffer result result_len orig orig_len s =
        some (v.announce { s with str := x }) := by
  cases result with
  | none =>
    cases orig with
    | some b =>
      exact ⟨Verdict.failure "should not be NULL", s.str,
        by simp [bufferRules, firstApplicable],
        by simp [ut_validate_buffer, Verdict.announce]⟩
    | none =>
      by_cases h3 : result_len = 0
      · subst h3
        by_cases h4 : 0 = orig_len
        · subst h4
          exact ⟨Verdict.success, s.str,
            by simp [bufferRules, firstApplicable],
            by simp [ut_validate_buffer, Verdict.announce]⟩
        · exact ⟨Verdict.failure ("result len == " ++ fmt_d 0 ++
              " but should be " ++ fmt_d orig_len), s.str,
            by simp [bufferRules, firstApplicable, h4],
            by simp [ut_validate_buffer, Verdict.announce, h4]⟩
      · exact ⟨Verdict.failure "NULL but len is not 0", s.str,
          by simp [bufferRules, firstApplicable, h3],
          by simp [ut_validate_buffer, Verdict.announce, h3]⟩
  | some a =>
    have hda : hexDump a result_len = specHexDump a result_len :=
      hexDump_plain a result_len (hr.2 a rfl) (hpr a rfl)
    have hea := hex_escape_of_within a result_len s hr.1 (hr.2 a rfl)
    rw [hda] at hea
    cases orig with
    | none =>
      exact ⟨Verdict.failure ("'" ++ specHexDump a result_len ++ "' should be NULL"),
        specHexDump a result_len,
        by simp [bufferRules, firstApplicable],
        by simp [ut_validate_buffer, Verdict.announce, hea]⟩
    | some b =>
      have hdb : hexDump b orig_len = specHexDump b orig_len :=
        hexDump_plain b orig_len (ho.2 b rfl) (hpo b rfl)
      by_cases h4 : result_len = orig_len
      · subst h4
        have hla : result_len.toNat ≤ a.length := by
          have := hr.2 a rfl
          omega
        have hlb : result_len.toNat ≤ b.length := by
          have := ho.2 b rfl
          omega
        have hst : size_t result_len = result_len.toNat := by
          have := hr.1
          unfold size_t
          omega
        obtain ⟨c, hc, hiff⟩ := memcmp_eq_zero_iff result_len.toNat a b hla hlb
        by_cases h6 : bytes a result_len.toNat = bytes b result_len.toNat
        · have hz : c = 0 := hiff.mpr h6
          exact ⟨Verdict.success, s.str,
            by simp [bufferRules, firstApplicable, h6],
            by simp [ut_validate_buffer, Verdict.announce, hst, hc, hz]⟩
        · have hz : c ≠ 0 := fun e => h6 (hiff.mp e)
          have heb : hex_escape b result_len { s with str := specHexDump a result_len } =
              some { s with str := specHexDump b result_len } := by
            rw [← hdb]
            exact hex_escape_of_within b result_len
              { s with str := specHexDump a result_len } ho.1 (ho.2 b rfl)
          exact ⟨Verdict.failure ("'" ++ specHexDump a result_len ++ "' should be '" ++
              specHexDump b result_len ++ "'"), specHexDump b result_len,
            by simp [bufferRules, firstApplicable, h6],
            by simp [ut_validate_buffer, Verdict.announce, hst, hc, hz, hea, heb,
              ut_failure_pair]⟩
      · exact ⟨Verdict.failure ("result len == " ++ fmt_d result_len ++
            " but should be " ++ fmt_d orig_len), s.str,
          by simp [bufferRules, firstApplicable, h4],
          by simp [ut_validate_buffer, Verdict.announce, h4]⟩

/-- C4, the code at the failing input: for the buffers `80 01` and `80 02`, both
of length 2 (well-formed arguments; 0x80 is the `char` -128), rule 6 of the
policy asks for the message `'0x8001' should be '0x8002'`, each dump that of its
buffer, and the code prints `'0xff01' should be '0xff02'`; for the buffer `80`
against NULL, rule 1 asks for `'0x80' should be NULL` and the code prints
`'0xffffff80' should be NULL`.  With bytes below 0x80 the code prints what the
policy asks for. -/
theorem ut_validate_buffer_high_byte :
    (BufferArg (some [charOfByte 0x80, charOfByte 0x01]) 2 ∧
      BufferArg (some [charOfByte 0x80, charOfByte 0x02]) 2) ∧
    firstApplicable (bufferRules (some [charOfByte 0x80, charOfByte 0x01]) 2
        (some [charOfByte 0x80, charOfByte 0x02]) 2) =
      some (Verdict.failure "'0x8001' should be '0x8002'") ∧
    (ut_validate_buffer (some [charOfByte 0x80, charOfByte 0x01]) 2
        (some [charOfByte 0x80, charOfByte 0x02]) 2 State.initial).map (fun p => (p.1, p.2.out)) =
      some (0, "FAILED '0xff01' should be '0xff02'\n") ∧
    firstApplicable (bufferRules (some [charOfByte 0x80]) 1 none 0) =
      some (Verdict.failure "'0x80' should be NULL") ∧
    (ut_validate_buffer (some [charOfByte 0x80]) 1 none 0 State.initial).map
        (fun p => (p.1, p.2.out)) =
      some (0, "FAILED '0xffffff80' should be NULL\n") ∧
    firstApplicable (bufferRules (some [charOfByte 0x7f, charOfByte 0x01]) 2
        (some [charOfByte 0x7f, charOfByte 0x02]) 2) =
      some (Verdict.failure "'0x7f01' should be '0x7f02'") ∧
    (ut_validate_buffer (some [charOfByte 0x7f, charOfByte 0x01]) 2
        (some [charOfByte 0x7f, charOfByte 0x02]) 2 State.initial).map (fun p => (p.1, p.2.out)) =
      some (0, "FAILED '0x7f01' should be '0x7f02'\n") := by
  refine ⟨⟨⟨by decide, fun b hb => by cases hb; decide⟩,
    ⟨by decide, fun b hb => by cases hb; decide⟩⟩, ?_, ?_, ?_, ?_, ?_, ?_⟩ <;> decide

/-! ## C11: the summary line -/

/-- C11: on its non-fatal path (`ut_tests` is not 0 and equals
`ut_succeeded + ut_failed + ut_skipped`) `ut_summary` prints exactly
`==> Summary: <tests> tests, <succeeded> succeeded`, then `, <failed> failed`
if and only if `ut_failed` is not 0, then `, <skipped> skipped` if and only if
`ut_skipped` is not 0, then `.` and a newline, all numbers in decimal, and it
returns. -/
theorem ut_summary_line (s : State) (h0 : s.ut_tests ≠ 0)
    (h : s.ut_succeeded + s.ut_failed + s.ut_skipped = s.ut_tests) :
    (ut_summary s).1 = Completion.returned ∧
    (ut_summary s).2.out =
      s.out ++ "==> Summary: " ++ fmt_d s.ut_tests ++ " tests, " ++
        fmt_d s.ut_succeeded ++ " succeeded" ++
        (if s.ut_failed ≠ 0 then ", " ++ fmt_d s.ut_failed ++ " failed" else "") ++
        (if s.ut_skipped ≠ 0 then ", " ++ fmt_d s.ut_skipped ++ " skipped" else "") ++
        ".\n" := by
  rw [ut_summary_ok s h0 h]
  exact ⟨rfl, rfl⟩

/-- C11, witness: after four tests that all succeeded the output is
`==> Summary: 4 tests, 4 succeeded.` and a newline; with one failure and one
skip among four tests both parts appear, in that order. -/
theorem ut_summary_line_witness :
    ((4 : Int) ≠ 0 ∧ (4 : Int) + 0 + 0 = 4) ∧
    (ut_summary { State.initial with ut_tests := 4, ut_succeeded := 4 }).2.out =
      "==> Summary: 4 tests, 4 succeeded.\n" ∧
    (ut_summary { State.initial with
        ut_tests := 4, ut_succeeded := 2, ut_failed := 1, ut_skipped := 1 }).2.out =
      "==> Summary: 4 tests, 2 succeeded, 1 failed, 1 skipped.\n" :=
  ⟨⟨by decide, by decide⟩,
    ((ut_summary_line { State.initial with ut_tests := 4, ut_succeeded := 4 }
      (by decide) (by decide)).2).trans (by decide),
    by decide⟩

/-! ## C18: terminal geometry -/

/-- C18: when the terminal size query fails, `COLUMNS` and `LINES` give the
layout (each read by `strtol` and stored in an `int`); if either is absent or
parses to 0, as a non-numeric value does, both dimensions are the defaults 80
and 25, and then `left_width` is 48 and `right_width` is 32.  In every case,
the query succeeding included, `right_width` is `cols - left_width`. -/
theorem ut_windowsize_fallback (env : Environment) (s : State) :
    (env.winsize = none →
      (env.COLUMNS = none ∨ (∃ c, env.COLUMNS = some c ∧ toInt32 (strtol c) = 0) ∨
        env.LINES = none ∨ (∃ l, env.LINES = some l ∧ toInt32 (strtol l) = 0)) →
      (ut_windowsize env s).cols = 80 ∧ (ut_windowsize env s).rows = 25 ∧
      (ut_windowsize env s).left_width = 48 ∧ (ut_windowsize env s).right_width = 32) ∧
    (env.winsize = none → ∀ c l, env.COLUMNS = some c → env.LINES = some l →
      toInt32 (strtol c) ≠ 0 → toInt32 (strtol l) ≠ 0 →
      (ut_windowsize env s).cols = toInt32 (strtol c) ∧
      (ut_windowsize env s).rows = toInt32 (strtol l)) ∧
    (ut_windowsize env s).right_width =
      (ut_windowsize env s).cols - (ut_windowsize env s).left_width ∧
    (strtol "abc" = 0 ∧ strtol "" = 0 ∧ strtol "132" = 132) ∧
    ((Double.ofInt 80).mul LEFT_SHARE).toInt = 48 := by
  have h48 : ((Double.ofInt 80).mul LEFT_SHARE).toInt = 48 := by decide
  refine ⟨?_, ?_, ?_, by decide, h48⟩
  · intro hw h
    have key : (ut_windowsize env s).cols = 80 ∧ (ut_windowsize env s).rows = 25 := by
      unfold ut_windowsize
      rw [hw]
      rcases hc : env.COLUMNS with _ | c
      · simp
      · by_cases hc0 : toInt32 (strtol c) = 0
        · simp [hc0]
        · rcases hl : env.LINES with _ | l
          · simp [hc0]
          · by_cases hl0 : toInt32 (strtol l) = 0
            · simp [hc0, hl0]
            · exfalso
              rcases h with h | ⟨c2, h, h2⟩ | h | ⟨l2, h, h2⟩
              · rw [hc] at h; cases h
              · rw [hc] at h; cases h; exact hc0 h2
              · rw [hl] at h; cases h
              · rw [hl] at h; cases h; exact hl0 h2
    have hlw : (ut_windowsize env s).left_width =
        ((Double.ofInt (ut_windowsize env s).cols).mul LEFT_SHARE).toInt := by
      simp [ut_windowsize]
    have hrw : (ut_windowsize env s).right_width =
        (ut_windowsize env s).cols - (ut_windowsize env s).left_width := by
      simp [ut_windowsize]
    refine ⟨key.1, key.2, ?_, ?_⟩
    · rw [hlw, key.1, h48]
    · rw [hrw, hlw, key.1, h48]; rfl
  · intro hw c l hc hl hc0 hl0
    unfold ut_windowsize
    rw [hw]
    simp [hc, hl, hc0, hl0]
  · simp [ut_windowsize]

/-! ## C17: `ut_section` -/

theorem ut_section_eq (subtitle : String) (s : State) :
    ut_section subtitle s =
      { s with ut_sections := s.ut_sections + 1,
               out := s.out ++ (if s.ut_sections > 0 then "\n" else "") ++ "==> Section " ++
                 fmt_d (s.ut_sections + 1) ++ ": " ++ subtitle ++ "\n" } := by
  by_cases h : s.ut_sections > 0
  · simp only [ut_section, State.print, h, if_true, String.append_assoc]
  · simp only [ut_section, State.print, h, if_false, String.append_assoc]
    rfl

theorem ut_progress_eq (p : Int) (s : State) :
    ut_progress p s =
      { s with out := s.out ++ eraseText s.backspace.toNat ++ fmt_d p ++ "%",
               backspace := ((fmt_d p).length : Int) + 1 } := by
  simp only [ut_progress, ut_backspace_eq, State.print, String.append_assoc,
    String.length_append, Nat.cast_add]
  rfl

theorem Call.step_sections (c : Call) (s : State) :
    (c.step s).ut_sections = s.ut_sections + (if c.isSection then 1 else 0) := by
  cases c with
  | testing msg => simp [Call.step, Call.isSection, ut_testing_eq]
  | section_ t => simp [Call.step, Call.isSection, ut_section_eq]
  | progress n => simp [Call.step, Call.isSection, ut_progress_eq]
  | success => simp [Call.step, Call.isSection, ut_success_eq]
  | skip => simp [Call.step, Call.isSection, ut_skip_eq]
  | failure msg => simp [Call.step, Call.isSection, ut_failure_eq]
  | vfailure msg => simp [Call.step, Call.isSection, ut_vfailure_eq]
  | result r msg =>
    by_cases h : r = 0 <;>
      simp [Call.step, Call.isSection, ut_result, ut_vresult, ut_success_eq, ut_vfailure_eq, h]
  | vresult r msg =>
    by_cases h : r = 0 <;>
      simp [Call.step, Call.isSection, ut_vresult, ut_success_eq, ut_vfailure_eq, h]
  | validate_buffer a n b m hret =>
    obtain ⟨p, hp, hstep, _⟩ := Call.step_validate_buffer a n b m hret s
    rw [hstep]
    simp [Call.isSection, (ut_validate_buffer_records a n b m s p hp).2.2.2]
  | validate_string a b =>
    simp [Call.step, Call.isSection, (ut_validate_string_records a b s).2.2.2]
  | validate_double a b =>
    simp [Call.step, Call.isSection, (ut_validate_double_records a b s).2.2.2]
  | validate_int a b =>
    simp [Call.step, Call.isSection, (ut_validate_int_records a b s).2.2.2]

theorem run_sections (calls : List Call) (s : State) :
    (run s calls).ut_sections = s.ut_sections + (calls.countP Call.isSection : Int) := by
  induction calls generalizing s with
  | nil => simp [run]
  | cons c cs ih =>
    have hs := ih (c.step s)
    simp only [run, List.foldl_cons] at hs ⊢
    rw [hs, Call.step_sections, List.countP_cons]
    push_cast
    ring

/-- C17: for every state and title, `ut_section(title)` adds exactly 1 to the
section counter and changes no other counter; it prints a blank line first if
and only if `ut_sections` was above 0, that is, a section was opened before
(after a run from an initial state `ut_sections` is the number of `ut_section`
calls made), then `==> Section <N>: <title>` and a newline, `N` being the new
count: the k-th call prints `N = k`, starting at 1. -/
theorem ut_section_spec (s : State) (title : String) (calls : List Call) :
    (ut_section title s).ut_sections = s.ut_sections + 1 ∧
    (ut_section title s).ut_tests = s.ut_tests ∧
    (ut_section title s).ut_succeeded = s.ut_succeeded ∧
    (ut_section title s).ut_failed = s.ut_failed ∧
    (ut_section title s).ut_skipped = s.ut_skipped ∧
    (ut_section title s).out =
      s.out ++ (if s.ut_sections > 0 then "\n" else "") ++ "==> Section " ++
        fmt_d (s.ut_sections + 1) ++ ": " ++ title ++ "\n" ∧
    (run s.zeroed calls).ut_sections = (calls.countP Call.isSection : Int) ∧
    (ut_section title (run s.zeroed calls)).out =
      (run s.zeroed calls).out ++ (if 0 < calls.countP Call.isSection then "\n" else "") ++
        "==> Section " ++ fmt_d ((calls.countP Call.isSection : Int) + 1) ++ ": " ++
        title ++ "\n" ∧
    (run State.initial [Call.section_ "A", Call.testing "t", Call.success,
        Call.section_ "B"]).out =
      "==> Section 1: A\n  1 tok\n\n==> Section 2: B\n" := by
  have hrun : (run s.zeroed calls).ut_sections = (calls.countP Call.isSection : Int) := by
    rw [run_sections]; simp [State.zeroed]
  have hout : (ut_section title (run s.zeroed calls)).out =
      (run s.zeroed calls).out ++ (if 0 < calls.countP Call.isSection then "\n" else "") ++
        "==> Section " ++ fmt_d ((calls.countP Call.isSection : Int) + 1) ++ ": " ++
        title ++ "\n" := by
    simp only [ut_section_eq, hrun]
    by_cases h : 0 < calls.countP Call.isSection
    · have h2 : (calls.countP Call.isSection : Int) > 0 := by exact_mod_cast h
      rw [if_pos h, if_pos h2]
    · have h2 : ¬ (calls.countP Call.isSection : Int) > 0 := by exact_mod_cast h
      rw [if_neg h, if_neg h2]
  refine ⟨?_, ?_, ?_, ?_, ?_, ?_, hrun, hout, by decide⟩
  all_goals simp [ut_section_eq]

/-! ## C14: `ut_progress` -/

/-- C14: for every int `p` and every state, `ut_progress(p)` prints exactly `k`
copies of backspace-blank-backspace, `k` being the stored erase count, then `p`
in decimal and a `%` sign; afterwards the stored erase count is the number of
characters of `<p>%` (the decimal length of `p`, a minus sign included, plus
1), so the next `ut_progress` erases exactly that many; no test counter
changes.  The count is 0 at program start and after an outcome call. -/
theorem ut_progress_spec (p q : Int) (s : State) :
    (ut_progress p s).out = s.out ++ eraseText s.backspace.toNat ++ fmt_d p ++ "%" ∧
    (ut_progress p s).backspace = ((fmt_d p).length : Int) + 1 ∧
    (ut_progress q (ut_progress p s)).out =
      (ut_progress p s).out ++ eraseText ((fmt_d p).length + 1) ++ fmt_d q ++ "%" ∧
    (p < 0 → fmt_d p = "-" ++ fmt_d (-p)) ∧
    ((ut_progress p s).ut_tests = s.ut_tests ∧
      (ut_progress p s).ut_sections = s.ut_sections ∧
      (ut_progress p s).ut_succeeded = s.ut_succeeded ∧
      (ut_progress p s).ut_skipped = s.ut_skipped ∧
      (ut_progress p s).ut_failed = s.ut_failed) ∧
    (0 ≤ s.backspace →
      (ut_progress p (ut_success s).2).out = (ut_success s).2.out ++ fmt_d p ++ "%") ∧
    ((ut_progress 7 State.initial).out = "7%" ∧
      (ut_progress 7 State.initial).backspace = 2 ∧
      (ut_progress (-12) State.initial).backspace = 4 ∧
      (ut_progress 100 (ut_progress 99 State.initial)).out =
        "99%\x08 \x08\x08 \x08\x08 \x08100%") := by
  refine ⟨by simp [ut_progress_eq], by simp [ut_progress_eq], ?_, ?_, by simp [ut_progress_eq],
    ?_, by decide⟩
  · have h : (((fmt_d p).length : Int) + 1).toNat = (fmt_d p).length + 1 := by omega
    simp only [ut_progress_eq, h]
  · intro hp
    cases p with
    | ofNat n => exact absurd hp (by simp)
    | negSucc n => rfl
  · intro hb
    have h : (s.backspace - (s.backspace.toNat : Int)).toNat = 0 := by omega
    simp only [ut_progress_eq, ut_success_eq, h, eraseText, String.append_assoc]
    rfl

/-! ## C19: `ut_testing` with a long message -/

theorem pad_length (c : Char) (n : Nat) : (pad c n).length = n := by
  simp [pad, String.length]

theorem fmt_sp3d_length (v : Int) : 3 ≤ (fmt_sp3d v).length := by
  simp only [fmt_sp3d, String.length_append, pad_length]
  omega

/-- What holds of a long message: when the message is at least `left_width - 3`
characters long (3 being what the code counts for the index field, whatever
the index), `ut_testing` adds exactly 1 to `ut_tests`, prints the new value of
`ut_tests` right-aligned in a field at least 3 characters wide, one blank, and
then the whole message, with nothing after it. -/
theorem ut_testing_long_message (msg : String) (s : State)
    (h : s.left_width - 3 ≤ (msg.length : Int)) :
    (ut_testing msg s).ut_tests = s.ut_tests + 1 ∧
    (ut_testing msg s).out = s.out ++ fmt_sp3d (s.ut_tests + 1) ++ " " ++ msg ∧
    3 ≤ (fmt_sp3d (s.ut_tests + 1)).length ∧
    (0 ≤ s.ut_tests + 1 →
      fmt_sp3d (s.ut_tests + 1) =
        pad ' ' (3 - (fmt_d (s.ut_tests + 1)).length - 1) ++ " " ++ fmt_d (s.ut_tests + 1)) := by
  have hn : (s.left_width - 3 - (msg.length : Int)).toNat = 0 := by omega
  refine ⟨by simp [ut_testing_eq], ?_, fmt_sp3d_length _, ?_⟩
  · have he : pad ' ' 0 = "" := rfl
    simp only [ut_testing_eq, hn, he, String.append_empty, String.append_assoc]
  · intro h0
    have hneg : ¬ (s.ut_tests + 1 < 0) := by omega
    simp only [fmt_sp3d, hneg, if_false, String.length_append, String.append_assoc]
    congr 2
    show 3 - (1 + (fmt_d (s.ut_tests + 1)).length) = 3 - (fmt_d (s.ut_tests + 1)).length - 1
    omega

/-- C19, the code at the failing input: test 150 with `left_width` 48 and a
message of 44 characters.  The index field ` 150` is 4 characters wide, so the
message is at least as long as the remaining width 48 - 4 = 44; yet the code
counts 3 for the index field, finds 48 - 3 - 44 = 1 column left and appends one
blank after the message.  For test 5 (index field 3 wide) a message of the
remaining width 45 gets no padding. -/
theorem ut_testing_pads_long_message :
    "Testing a message that is 44 characters long".length = 44 ∧
    (fmt_sp3d 150).length = 4 ∧
    (48 : Int) - ((fmt_sp3d 150).length : Int) ≤
      ("Testing a message that is 44 characters long".length : Int) ∧
    (ut_testing "Testing a message that is 44 characters long"
      { State.initial with left_width := 48, ut_tests := 149 }).out =
      " 150 Testing a message that is 44 characters long" ++ " " ∧
    (ut_testing "Testing a message that is 44 characters long"
      { State.initial with left_width := 48, ut_tests := 149 }).ut_tests = 150 ∧
    (ut_testing "Testing a message that is 45 characters long."
      { State.initial with left_width := 48, ut_tests := 4 }).out =
      "  5 Testing a message that is 45 characters long." := by
  decide

/-! ## C20: the frame of the calls that record no outcome -/

theorem ut_validate_string_ret (a b : Option String) (s t : State) :
    (ut_validate_string a b s).1 = (ut_validate_string a b t).1 := by
  unfold ut_validate_string
  split_ifs <;> simp [ut_success_eq, ut_failure_eq]

theorem ut_validate_double_ret (a b : CDouble) (s t : State) :
    (ut_validate_double a b s).1 = (ut_validate_double a b t).1 := by
  unfold ut_validate_double
  split_ifs <;> simp [ut_success_eq, ut_failure_eq]

theorem ut_validate_int_ret (a b : Int) (s t : State) :
    (ut_validate_int a b s).1 = (ut_validate_int a b t).1 := by
  unfold ut_validate_int
  split_ifs <;> simp [ut_success_eq, ut_failure_eq]

theorem RecordsOneOutcome.failed {s : State} {p : Int × State}
    (h : RecordsOneOutcome s p) :
    p.2.ut_failed = s.ut_failed + (if p.1 = 0 then 1 else 0) := by
  rcases h.1 with ⟨h1, _, h3⟩ | ⟨h1, h2, _⟩
  · simp [h1, h3]
  · simp [h1, h2]

theorem Call.step_failed (c : Call) (s : State) :
    (c.step s).ut_failed = s.ut_failed + (if c.isFailure then 1 else 0) := by
  cases c with
  | testing msg => simp [Call.step, Call.isFailure, ut_testing_eq]
  | section_ t => simp [Call.step, Call.isFailure, ut_section_eq]
  | progress n => simp [Call.step, Call.isFailure, ut_progress_eq]
  | success => simp [Call.step, Call.isFailure, ut_success_eq]
  | skip => simp [Call.step, Call.isFailure, ut_skip_eq]
  | failure msg => simp [Call.step, Call.isFailure, ut_failure_eq]
  | vfailure msg => simp [Call.step, Call.isFailure, ut_vfailure_eq]
  | result r msg =>
    by_cases h : r = 0 <;>
      simp [Call.step, Call.isFailure, ut_result, ut_vresult, ut_success_eq, ut_vfailure_eq, h]
  | vresult r msg =>
    by_cases h : r = 0 <;>
      simp [Call.step, Call.isFailure, ut_vresult, ut_success_eq, ut_vfailure_eq, h]
  | validate_buffer a n b m hret =>
    obtain ⟨p, hp, hstep, hfail⟩ := Call.step_validate_buffer a n b m hret s
    have h := (ut_validate_buffer_records a n b m s p hp).failed
    rw [hstep, h]
    by_cases h0 : p.1 = 0
    · rw [if_pos h0, if_pos (hfail.mpr h0)]
    · rw [if_neg h0, if_neg (fun c => h0 (hfail.mp c))]
  | validate_string a b =>
    have h := (ut_validate_string_records a b s).failed
    rw [ut_validate_string_ret a b s State.initial] at h
    simp only [Call.step, Call.isFailure, h, decide_eq_true_eq]
  | validate_double a b =>
    have h := (ut_validate_double_records a b s).failed
    rw [ut_validate_double_ret a b s State.initial] at h
    simp only [Call.step, Call.isFailure, h, decide_eq_true_eq]
  | validate_int a b =>
    have h := (ut_validate_int_records a b s).failed
    rw [ut_validate_int_ret a b s State.initial] at h
    simp only [Call.step, Call.isFailure, h, decide_eq_true_eq]

theorem run_failed (calls : List Call) (s : State) :
    (run s calls).ut_failed = s.ut_failed + (calls.countP Call.isFailure : Int) := by
  induction calls generalizing s with
  | nil => simp [run]
  | cons c cs ih =>
    have hs := ih (c.step s)
    simp only [run, List.foldl_cons] at hs ⊢
    rw [hs, Call.step_failed, List.countP_cons]
    push_cast
    ring

theorem ut_summary_returned_state (s : State) (h : (ut_summary s).1 = Completion.returned) :
    (ut_summary s).2.ut_tests = s.ut_tests ∧ (ut_summary s).2.ut_sections = s.ut_sections ∧
    (ut_summary s).2.ut_succeeded = s.ut_succeeded ∧
    (ut_summary s).2.ut_skipped = s.ut_skipped ∧ (ut_summary s).2.ut_failed = s.ut_failed := by
  by_cases h0 : s.ut_tests = 0
  · rw [ut_summary_no_tests s h0] at h
    cases h
  · by_cases hr : s.ut_succeeded + s.ut_failed + s.ut_skipped = s.ut_tests
    · simp [ut_summary_ok s h0 hr]
    · rw [ut_summary_mismatch s h0 hr] at h
      cases h

/-- C20: `ut_testing` changes only `ut_tests` among the counters, by +1;
`ut_progress` changes no counter; `ut_section` changes none of `ut_tests`,
`ut_succeeded`, `ut_failed`, `ut_skipped`; `ut_summary`, when it returns,
changes no counter at all.  So after a run from an initial state and a
`ut_summary` that returns, `ut_failed`, which the caller returns as the exit
status, is the number of failure outcomes recorded during the run. -/
theorem non_outcome_frame (s : State) (msg : String) (p : Int) (calls : List Call) :
    ((ut_testing msg s).ut_tests = s.ut_tests + 1 ∧
      (ut_testing msg s).ut_sections = s.ut_sections ∧
      (ut_testing msg s).ut_succeeded = s.ut_succeeded ∧
      (ut_testing msg s).ut_skipped = s.ut_skipped ∧
      (ut_testing msg s).ut_failed = s.ut_failed) ∧
    ((ut_progress p s).ut_tests = s.ut_tests ∧
      (ut_progress p s).ut_sections = s.ut_sections ∧
      (ut_progress p s).ut_succeeded = s.ut_succeeded ∧
      (ut_progress p s).ut_skipped = s.ut_skipped ∧
      (ut_progress p s).ut_failed = s.ut_failed) ∧
    ((ut_section msg s).ut_tests = s.ut_tests ∧
      (ut_section msg s).ut_succeeded = s.ut_succeeded ∧
      (ut_section msg s).ut_skipped = s.ut_skipped ∧
      (ut_section msg s).ut_failed = s.ut_failed) ∧
    ((ut_summary s).1 = Completion.returned →
      (ut_summary s).2.ut_tests = s.ut_tests ∧
      (ut_summary s).2.ut_sections = s.ut_sections ∧
      (ut_summary s).2.ut_succeeded = s.ut_succeeded ∧
      (ut_summary s).2.ut_skipped = s.ut_skipped ∧
      (ut_summary s).2.ut_failed = s.ut_failed) ∧
    ((ut_summary (run s.zeroed calls)).1 = Completion.returned →
      (ut_summary (run s.zeroed calls)).2.ut_failed = (calls.countP Call.isFailure : Int)) := by
  refine ⟨by simp [ut_testing_eq], by simp [ut_progress_eq], by simp [ut_section_eq],
    ut_summary_returned_state s, fun h => ?_⟩
  rw [(ut_summary_returned_state _ h).2.2.2.2, run_failed]
  simp [State.zeroed]

/-! ## C12 and C13: the width of the test line -/

theorem fmt_sp3d_length_small (n : Nat) (h : n < 100) : (fmt_sp3d (n : Int)).length = 3 := by
  revert n
  decide

theorem ut_testing_line_length (msg : String) (s : State)
    (h : (msg.length : Int) < s.left_width - 3) :
    ((ut_testing msg s).out.length : Int) =
      (s.out.length : Int) + ((fmt_sp3d (s.ut_tests + 1)).length : Int) + 1 +
        (s.left_width - 3) := by
  have hn : ((s.left_width - 3 - (msg.length : Int)).toNat : Int) =
      s.left_width - 3 - (msg.length : Int) := by omega
  have h1 : (" " : String).length = 1 := rfl
  simp only [ut_testing_eq, String.length_append, pad_length, Nat.cast_add, hn, h1]
  push_cast
  ring

/-- C13, the code at the failing input: with `left_width` 48, the first test
and the message `Testing integer` (index field 3, one blank and 15 characters,
19 in all, fewer than 48), `ut_testing` prints 49 characters, not 48: the index
in a field of 3, a blank, the message and 30 blanks. -/
theorem ut_testing_line_is_one_longer :
    ({ State.initial with left_width := 48 } : State).left_width = 48 ∧
    (fmt_sp3d 1 ++ " " ++ "Testing integer").length = 19 ∧
    (ut_testing "Testing integer" { State.initial with left_width := 48 }).out =
      "  1 Testing integer" ++ pad ' ' 30 ∧
    (ut_testing "Testing integer" { State.initial with left_width := 48 }).out.length = 49 := by
  decide

/-- C12, the code at the failing input: with `left_width` 48 and the same
message, the line of test 5 is 49 characters long and the line of test 150 is
50 characters long, so the status text of test 150 starts one column further
right. -/
theorem ut_testing_line_of_test_150 :
    (ut_testing "Testing integer"
      { State.initial with left_width := 48, ut_tests := 4 }).out =
      "  5 Testing integer" ++ pad ' ' 30 ∧
    (ut_testing "Testing integer"
      { State.initial with left_width := 48, ut_tests := 149 }).out =
      " 150 Testing integer" ++ pad ' ' 30 ∧
    (ut_testing "Testing integer"
      { State.initial with left_width := 48, ut_tests := 4 }).out.length = 49 ∧
    (ut_testing "Testing integer"
      { State.initial with left_width := 48, ut_tests := 149 }).out.length = 50 := by
  decide

/-! ## C16: the hex dump -/

/-- C16, the code at the failing input: for the one-byte buffer `80` (the
`char` value -128 where `char` is signed) the dump is `0xffffff80`, 10
characters instead of 4; in the two-byte buffer `80 01` the first digit pair
is `ff`, not `80`; and `ut_validate_buffer` prints such a dump in its failure
message.  Bytes below 0x80 are dumped as two digits each. -/
theorem hex_escape_high_byte :
    charOfByte 0x80 = -128 ∧
    hexDump [charOfByte 0x80] 1 = "0xffffff80" ∧
    (hexDump [charOfByte 0x80] 1).length = 10 ∧
    hexDump [charOfByte 0x80, charOfByte 0x01] 2 = "0xff01" ∧
    (ut_validate_buffer (some [charOfByte 0x80]) 1 (some [charOfByte 0x01]) 1
      State.initial).map (fun p => p.2.out) =
      some "FAILED '0xffffff80' should be '0x01'\n" ∧
    hexDump [charOfByte 0x01, charOfByte 0x7f, charOfByte 0x00] 3 = "0x017f00" := by
  decide

/-! ## C15: progress output is fully erased -/

theorem Terminal.feed_append (t : Terminal) (a b : String) :
    t.feed (a ++ b) = (t.feed a).feed b := by
  simp [Terminal.feed, String.data_append, List.foldl_append]

theorem Terminal.feed_erase_one (t : Terminal) :
    t.feed "\x08 \x08" =
      { t with row := Function.update t.row (t.col - 1) ' ', col := t.col - 1 } := by
  have h : t.feed "\x08 \x08" = ((t.put '\x08').put ' ').put '\x08' := rfl
  rw [h]
  simp [Terminal.put]

theorem eraseText_succ_right (k : Nat) :
    eraseText (k + 1) = eraseText k ++ "\x08 \x08" := by
  induction k with
  | zero => rfl
  | succ k ih =>
    have h : eraseText (k + 1 + 1) = "\x08 \x08" ++ eraseText (k + 1) := rfl
    have h2 : eraseText (k + 1) = "\x08 \x08" ++ eraseText k := rfl
    rw [h]
    nth_rewrite 1 [ih]
    rw [← String.append_assoc, ← h2]

theorem Terminal.blank_erase_one (t : Terminal) (h : t.BlankFromCursor) :
    (t.feed "\x08 \x08").BlankFromCursor := by
  rw [Terminal.feed_erase_one]
  intro i hi
  have hi2 : t.col - 1 ≤ i := hi
  show Function.update t.row (t.col - 1) ' ' i = ' '
  by_cases hc : i = t.col - 1
  · rw [hc]
    exact Function.update_same _ _ _
  · rw [Function.update_noteq hc]
    exact h i (by omega)

theorem Terminal.blank_erase (k : Nat) (t : Terminal) (h : t.BlankFromCursor) :
    (t.feed (eraseText k)).BlankFromCursor := by
  induction k with
  | zero => exact h
  | succ k ih =>
    rw [eraseText_succ_right, Terminal.feed_append]
    exact Terminal.blank_erase_one _ ih

theorem Terminal.put_printable (t : Terminal) (c : Char) (hc : Printable c) :
    t.put c = { t with row := Function.update t.row t.col c, col := t.col + 1 } := by
  simp [Terminal.put, hc.1, hc.2]

theorem Terminal.blank_put (t : Terminal) (c : Char) (hc : Printable c)
    (h : t.BlankFromCursor) : (t.put c).BlankFromCursor := by
  rw [Terminal.put_printable t c hc]
  intro i hi
  have hi2 : t.col + 1 ≤ i := hi
  show Function.update t.row t.col c i = ' '
  rw [Function.update_noteq (by omega)]
  exact h i (by omega)

theorem Terminal.blank_feed (w : List Char) (t : Terminal) (hw : ∀ c ∈ w, Printable c)
    (h : t.BlankFromCursor) : (t.feed (String.mk w)).BlankFromCursor := by
  induction w generalizing t with
  | nil => exact h
  | cons c w ih =>
    have hstep : t.feed (String.mk (c :: w)) = (t.put c).feed (String.mk w) := rfl
    rw [hstep]
    exact ih _ (fun d hd => hw d (List.mem_cons_of_mem c hd))
      (Terminal.blank_put t c (hw c (List.mem_cons_self c w)) h)

theorem Terminal.feed_then_erase (w : List Char) (t : Terminal)
    (hw : ∀ c ∈ w, Printable c) (h : t.BlankFromCursor) :
    (t.feed (String.mk w)).feed (eraseText w.length) = t := by
  induction w generalizing t with
  | nil => rfl
  | cons c w ih =>
    have hc : Printable c := hw c (List.mem_cons_self c w)
    have hstep : t.feed (String.mk (c :: w)) = (t.put c).feed (String.mk w) := rfl
    rw [hstep, List.length_cons, eraseText_succ_right, Terminal.feed_append,
      ih _ (fun d hd => hw d (List.mem_cons_of_mem c hd)) (Terminal.blank_put t c hc h),
      Terminal.feed_erase_one, Terminal.put_printable t c hc]
    have hcell : t.row t.col = ' ' := h t.col (le_refl _)
    cases t with
    | mk above row col =>
      simp only [Nat.add_sub_cancel, Function.update_idem] at hcell ⊢
      rw [← hcell, Function.update_eq_self]

theorem digitChar_printable (d : Nat) (h : d < 10) : Printable (Nat.digitChar d) := by
  interval_cases d <;> decide

theorem toDigitsCore_printable (fuel n : Nat) (acc : List Char)
    (hacc : ∀ c ∈ acc, Printable c) : ∀ c ∈ Nat.toDigitsCore 10 fuel n acc, Printable c := by
  induction fuel generalizing n acc with
  | zero => simpa [Nat.toDigitsCore] using hacc
  | succ fuel ih =>
    have hcons : ∀ c ∈ Nat.digitChar (n % 10) :: acc, Printable c := by
      intro c hc
      rcases List.mem_cons.mp hc with h | h
      · rw [h]; exact digitChar_printable _ (Nat.mod_lt _ (by decide))
      · exact hacc c h
    simp only [Nat.toDigitsCore]
    split_ifs
    · exact hcons
    · exact ih _ _ hcons

theorem fmt_d_printable (p : Int) : ∀ c ∈ (fmt_d p).data, Printable c := by
  have hnat : ∀ n : Nat, ∀ c ∈ (Nat.repr n).data, Printable c := by
    intro n
    exact toDigitsCore_printable (n + 1) n [] (by simp)
  cases p with
  | ofNat n => exact hnat n
  | negSucc n =>
    have h : fmt_d (Int.negSucc n) = "-" ++ Nat.repr (n + 1) := rfl
    rw [h, String.data_append]
    intro c hc
    rcases List.mem_append.mp hc with h1 | h1
    · have hc2 : c = '-' := by simpa using h1
      rw [hc2]; decide
    · exact hnat _ c h1

theorem progress_text_printable (p : Int) : ∀ c ∈ (fmt_d p ++ "%").data, Printable c := by
  rw [String.data_append]
  intro c hc
  rcases List.mem_append.mp hc with h1 | h1
  · exact fmt_d_printable p c h1
  · have hc2 : c = '%' := by simpa using h1
    rw [hc2]; decide

theorem ut_progress_screen (p : Int) (s : State) :
    (ut_progress p s).screen =
      (s.screen.feed (eraseText s.backspace.toNat)).feed (fmt_d p ++ "%") := by
  have h : (ut_progress p s).out = s.out ++ eraseText s.backspace.toNat ++ (fmt_d p ++ "%") := by
    simp only [ut_progress_eq, String.append_assoc]
  unfold State.screen
  rw [h]
  simp only [Terminal.feed_append]

theorem ut_progress_screen_blank (p : Int) (s : State) (h : s.screen.BlankFromCursor) :
    (ut_progress p s).screen.BlankFromCursor := by
  rw [ut_progress_screen]
  exact Terminal.blank_feed (fmt_d p ++ "%").data _ (progress_text_printable p)
    (Terminal.blank_erase _ _ h)

theorem progress_then_erase (ps : List Int) (s : State) (tail : String)
    (h : s.screen.BlankFromCursor) :
    Terminal.initial.feed ((run s (ps.map Call.progress)).out ++
        eraseText (run s (ps.map Call.progress)).backspace.toNat ++ tail) =
      Terminal.initial.feed (s.out ++ eraseText s.backspace.toNat ++ tail) := by
  induction ps generalizing s with
  | nil => rfl
  | cons p ps ih =>
    have hrun : run s ((p :: ps).map Call.progress) =
        run (ut_progress p s) (ps.map Call.progress) := rfl
    rw [hrun, ih _ (ut_progress_screen_blank p s h)]
    have hk : (ut_progress p s).backspace.toNat = (fmt_d p ++ "%").data.length := by
      have h1 : (fmt_d p ++ "%").data.length = (fmt_d p).length + 1 := by
        rw [String.data_append, List.length_append]; rfl
      simp only [ut_progress_eq]
      omega
    have hb := Terminal.blank_erase s.backspace.toNat _ h
    have he : ((s.screen.feed (eraseText s.backspace.toNat)).feed (fmt_d p ++ "%")).feed
        (eraseText (fmt_d p ++ "%").data.length) = s.screen.feed (eraseText s.backspace.toNat) :=
      Terminal.feed_then_erase (fmt_d p ++ "%").data _ (progress_text_printable p) hb
    have hscr : Terminal.initial.feed (ut_progress p s).out = (ut_progress p s).screen := rfl
    rw [Terminal.feed_append, Terminal.feed_append, hscr, ut_progress_screen, hk, he,
      Terminal.feed_append, Terminal.feed_append]
    rfl

theorem run_progress_backspace (ps : List Int) (s : State) (h : 0 ≤ s.backspace) :
    0 ≤ (run s (ps.map Call.progress)).backspace := by
  induction ps generalizing s with
  | nil => exact h
  | cons p ps ih =>
    have hrun : run s ((p :: ps).map Call.progress) =
        run (ut_progress p s) (ps.map Call.progress) := rfl
    rw [hrun]
    apply ih
    simp only [ut_progress_eq]
    omega

theorem outcome_screens (x : State) (msg : String) :
    (ut_success x).2.screen =
      Terminal.initial.feed (x.out ++ eraseText x.backspace.toNat ++ "ok\n") ∧
    (ut_skip x).2.screen =
      Terminal.initial.feed (x.out ++ eraseText x.backspace.toNat ++ "skipped\n") ∧
    (ut_failure msg x).2.screen =
      Terminal.initial.feed
        (x.out ++ eraseText x.backspace.toNat ++ ("FAILED " ++ msg ++ "\n")) := by
  simp only [State.screen, ut_success_eq, ut_skip_eq, ut_failure_eq, String.append_assoc,
    and_self]

/-- C15: for every finite sequence of percentages, from a state with no
negative erase count whose terminal shows nothing at or right of the cursor,
the calls `ut_progress(p1)`, ..., `ut_progress(pn)` followed by `ut_success()`
(or `ut_skip()`, or `ut_failure(msg)`) leave the terminal exactly as the
outcome call alone leaves it: same lines, same cells, same cursor, no progress
character left.  The stored erase count is 0 after the outcome call, and when
no erase was pending at the start the status text begins in the column where
the cursor was before the first `ut_progress`. -/
theorem progress_fully_erased (ps : List Int) (s : State) (msg : String)
    (hb : 0 ≤ s.backspace) (hblank : s.screen.BlankFromCursor) :
    ((ut_success (run s (ps.map Call.progress))).2.screen = (ut_success s).2.screen ∧
      (ut_skip (run s (ps.map Call.progress))).2.screen = (ut_skip s).2.screen ∧
      (ut_failure msg (run s (ps.map Call.progress))).2.screen =
        (ut_failure msg s).2.screen) ∧
    ((ut_success (run s (ps.map Call.progress))).2.backspace = 0 ∧
      (ut_skip (run s (ps.map Call.progress))).2.backspace = 0 ∧
      (ut_failure msg (run s (ps.map Call.progress))).2.backspace = 0) ∧
    (s.backspace = 0 →
      (ut_success s).2.screen = s.screen.feed "ok\n" ∧
      (ut_skip s).2.screen = s.screen.feed "skipped\n" ∧
      (ut_failure msg s).2.screen = s.screen.feed ("FAILED " ++ msg ++ "\n")) := by
  have h1 := outcome_screens (run s (ps.map Call.progress)) msg
  have h2 := outcome_screens s msg
  have hrun := run_progress_backspace ps s hb
  refine ⟨⟨?_, ?_, ?_⟩, ?_, ?_⟩
  · rw [h1.1, h2.1]; exact progress_then_erase ps s _ hblank
  · rw [h1.2.1, h2.2.1]; exact progress_then_erase ps s _ hblank
  · rw [h1.2.2, h2.2.2]; exact progress_then_erase ps s _ hblank
  · simp only [ut_success_eq, ut_skip_eq, ut_failure_eq]
    omega
  · intro h0
    rw [h2.1, h2.2.1, h2.2.2, h0]
    have he : eraseText (0 : Int).toNat = "" := rfl
    simp only [he, String.append_empty, Terminal.feed_append, State.screen, and_self]

/-- C15, witness: in the test program, after `ut_testing("Testing progress")`
on a terminal of 80 columns (`left_width` 48), the 10000 calls
`ut_progress(i/100)` followed by `ut_success()` leave the terminal as
`ut_success()` alone does, with the erase count at 0. -/
theorem progress_fully_erased_witness :
    0 ≤ (ut_testing "Testing progress" { State.initial with left_width := 48 }).backspace ∧
    (ut_testing "Testing progress"
      { State.initial with left_width := 48 }).screen.BlankFromCursor ∧
    (ut_success (run (ut_testing "Testing progress" { State.initial with left_width := 48 })
      (testProgressValues.map Call.progress))).2.screen =
      (ut_success
        (ut_testing "Testing progress" { State.initial with left_width := 48 })).2.screen ∧
    (ut_success (run (ut_testing "Testing progress" { State.initial with left_width := 48 })
      (testProgressValues.map Call.progress))).2.backspace = 0 :=
  have hb : 0 ≤ (ut_testing "Testing progress"
      { State.initial with left_width := 48 }).backspace := by decide
  have hblank : (ut_testing "Testing progress"
      { State.initial with left_width := 48 }).screen.BlankFromCursor :=
    Terminal.blank_feed
      (ut_testing "Testing progress" { State.initial with left_width := 48 }).out.data
      Terminal.initial (by decide) (fun _ _ => rfl)
  ⟨hb, hblank,
    (progress_fully_erased testProgressValues _ "" hb hblank).1.1,
    (progress_fully_erased testProgressValues _ "" hb hblank).2.1.1⟩

end Ut
